import Mathlib

/-!
# kitten-tts: the Node.js bridge client (`src/index.js`)

A shallow embedding of `class KittenTTS` and of the JavaScript built-ins its
methods call (`Array.prototype.includes`, `Array.prototype.join`,
`String.prototype.trim`, `JSON.stringify`, `JSON.parse`,
`Buffer.from(_, 'base64')`), followed by theorems about `generate`,
`generateToFile`, `getAvailableVoices` and `isModelAvailable`.

Conventions.
* A JavaScript string is the list of its UTF-16 code units (`JsString`).
* A byte buffer is the list of its bytes (naturals below 256).
* The child process is an input of the model: `spawn` is given the run of the
  process it launches (its `data` events and its exit code).
* Arrays that JavaScript shares by reference live in an explicit `Heap`.
-/

set_option maxRecDepth 100000

namespace Bridge

/-! ## JavaScript strings -/

/-- A JavaScript string: its UTF-16 code units, in order. -/
abbrev JsString := List Nat

/-- UTF-16 code units of one Unicode scalar value. -/
def utf16Units (c : Char) : List Nat :=
  if c.toNat < 65536 then [c.toNat]
  else [55296 + (c.toNat - 65536) / 1024, 56320 + (c.toNat - 65536) % 1024]

/-- The JavaScript string written by a source literal. -/
def js (s : String) : JsString := s.toList.flatMap utf16Units

/-- WhiteSpace and LineTerminator code units of ECMAScript: what
`String.prototype.trim` strips. -/
def isJsWhiteSpace (c : Nat) : Bool :=
  c == 9 || c == 10 || c == 11 || c == 12 || c == 13 || c == 32 || c == 160 ||
  c == 5760 || (8192 ≤ c && c ≤ 8202) || c == 8232 || c == 8233 || c == 8239 ||
  c == 8287 || c == 12288 || c == 65279

/-- The method `String.prototype.trim`. -/
def trim (s : JsString) : JsString :=
  (s.dropWhile isJsWhiteSpace).rdropWhile isJsWhiteSpace

/-- The method `Array.prototype.join` on an array of strings. -/
def join (sep : JsString) : List JsString → JsString
  | [] => []
  | [x] => x
  | x :: y :: rest => x ++ sep ++ join sep (y :: rest)

/-- The method `Array.prototype.includes` on an array of strings, for a string
argument (SameValueZero on strings is equality of code units). -/
def includes (xs : List JsString) (v : JsString) : Bool :=
  xs.any (fun x => x == v)

/-! ## JSON values -/

/-- A JSON number as written: the decimal `(-1)^negative * mantissa * 10^exponent`.
It is kept exact; the only thing the bridge asks of a number is whether the
double it rounds to is zero. -/
structure JNum where
  negative : Bool
  mantissa : Nat
  exponent : Int
deriving DecidableEq, Repr

/-- A value produced by `JSON.parse`. An object keeps its members in source
order, duplicates included. -/
inductive JVal where
  | null
  | bool (b : Bool)
  | num (n : JNum)
  | str (s : JsString)
  | arr (items : List JVal)
  | obj (members : List (JsString × JVal))
deriving Repr

/-- A JavaScript value read from a parsed response: `none` is `undefined`. -/
abbrev JsValue := Option JVal

/-- Whether the double nearest to the decimal is `0` (or `-0`): the decimal is
zero, or it is at most `2^-1075`, half the least subnormal (ties go to even,
which is zero). -/
def JNum.roundsToZero (n : JNum) : Bool :=
  n.mantissa == 0 ||
    (n.exponent < 0 && decide (n.mantissa * 2 ^ 1075 ≤ 10 ^ (-n.exponent).toNat))

/-- The abstract operation ToBoolean, as applied by `if (x)`. -/
def truthy : JsValue → Bool
  | none => false
  | some .null => false
  | some (.bool b) => b
  | some (.num n) => !n.roundsToZero
  | some (.str s) => !s.isEmpty
  | some (.arr _) => true
  | some (.obj _) => true

/-- Own property of a parsed object by key: the last member with that key wins
(`JSON.parse` overwrites on a duplicate key). -/
def lookupMember (key : JsString) : List (JsString × JVal) → JsValue
  | [] => none
  | (k, v) :: rest =>
    match lookupMember key rest with
    | some w => some w
    | none => if k == key then some v else none

/-! ## JSON.parse -/

/-- JSON whitespace: tab, line feed, carriage return, space. -/
def isJsonWs (c : Nat) : Bool := c == 9 || c == 10 || c == 13 || c == 32

/-- Skips JSON whitespace. -/
def skipWs (s : List Nat) : List Nat := s.dropWhile isJsonWs

/-- ASCII digit. -/
def isDigit (c : Nat) : Bool := 48 ≤ c && c ≤ 57

/-- Value of a run of ASCII digits. -/
def digitsValue (ds : List Nat) : Nat := ds.foldl (fun acc d => acc * 10 + (d - 48)) 0

/-- Value of a hexadecimal digit, either case. -/
def hexVal (c : Nat) : Option Nat :=
  if 48 ≤ c ∧ c ≤ 57 then some (c - 48)
  else if 97 ≤ c ∧ c ≤ 102 then some (c - 87)
  else if 65 ≤ c ∧ c ≤ 70 then some (c - 55)
  else none

/-- The character a single-letter escape stands for. -/
def unescape (c : Nat) : Option Nat :=
  if c = 34 then some 34 else if c = 92 then some 92 else if c = 47 then some 47
  else if c = 98 then some 8 else if c = 102 then some 12 else if c = 110 then some 10
  else if c = 114 then some 13 else if c = 116 then some 9 else none

/-- Reads a JSON string after its opening quote, up to and including the
closing quote. -/
def parseStringBody : List Nat → Option (JsString × List Nat)
  | [] => none
  | c :: rest =>
    if c = 34 then some ([], rest)
    else if c = 92 then
      match rest with
      | [] => none
      | e :: rest2 =>
        if e = 117 then
          match rest2 with
          | h1 :: h2 :: h3 :: h4 :: rest3 =>
            match hexVal h1, hexVal h2, hexVal h3, hexVal h4 with
            | some a, some b, some c2, some d =>
              match parseStringBody rest3 with
              | some (s, r) => some ((((a * 16 + b) * 16 + c2) * 16 + d) :: s, r)
              | none => none
            | _, _, _, _ => none
          | _ => none
        else
          match unescape e with
          | some u =>
            match parseStringBody rest2 with
            | some (s, r) => some (u :: s, r)
            | none => none
          | none => none
    else if c < 32 then none
    else
      match parseStringBody rest with
      | some (s, r) => some (c :: s, r)
      | none => none

/-- Reads the optional exponent part of a number: the exponent and the rest. -/
def parseExponent (s : List Nat) : Option (Int × List Nat) :=
  match s with
  | [] => some (0, [])
  | c :: rest =>
    if c = 101 ∨ c = 69 then
      match rest with
      | [] => none
      | sg :: rest2 =>
        let neg := decide (sg = 45)
        let body := if sg = 45 ∨ sg = 43 then rest2 else sg :: rest2
        let ds := body.takeWhile isDigit
        if ds.isEmpty then none
        else
          let e : Int := digitsValue ds
          some (if neg then -e else e, body.dropWhile isDigit)
    else some (0, c :: rest)

/-- Reads the optional fraction part of a number: its digits and the rest. -/
def parseFraction (s : List Nat) : Option (List Nat × List Nat) :=
  match s with
  | [] => some ([], [])
  | c :: rest =>
    if c = 46 then
      let ds := rest.takeWhile isDigit
      if ds.isEmpty then none else some (ds, rest.dropWhile isDigit)
    else some ([], c :: rest)

/-- Reads the integer part of a number: `0`, or a nonzero digit and more digits. -/
def parseIntPart (s : List Nat) : Option (List Nat × List Nat) :=
  match s with
  | [] => none
  | c :: rest =>
    if c = 48 then some ([48], rest)
    else if isDigit c then some (c :: rest.takeWhile isDigit, rest.dropWhile isDigit)
    else none

/-- Whether the input starts with a minus sign. -/
def startsWithMinus : List Nat → Bool
  | c :: _ => decide (c = 45)
  | [] => false

/-- Reads a JSON number. -/
def parseNumber (s : List Nat) : Option (JNum × List Nat) :=
  let neg := startsWithMinus s
  let body := if neg then s.tail else s
  match parseIntPart body with
  | none => none
  | some (ip, r1) =>
    match parseFraction r1 with
    | none => none
    | some (fp, r2) =>
      match parseExponent r2 with
      | none => none
      | some (e, r3) =>
        some (⟨neg, digitsValue (ip ++ fp), e - (fp.length : Int)⟩, r3)

/-- Strips a literal from the front of the input. -/
def stripLit : List Nat → List Nat → Option (List Nat)
  | [], s => some s
  | _ :: _, [] => none
  | l :: ls, c :: s => if l = c then stripLit ls s else none

/-- Outcome of a parsing step. -/
inductive PResult (α : Type) where
  | ok (v : α) (rest : List Nat)
  | syntaxError
  | outOfFuel
deriving Repr

mutual
/-- Reads one JSON value, after optional whitespace. -/
def parseValue : Nat → List Nat → PResult JVal
  | 0, _ => .outOfFuel
  | fuel + 1, input =>
    match skipWs input with
    | [] => .syntaxError
    | c :: rest =>
      if c = 123 then
        match skipWs rest with
        | [] => .syntaxError
        | c2 :: rest2 =>
          if c2 = 125 then .ok (.obj []) rest2
          else parseMembers fuel (c2 :: rest2) []
      else if c = 91 then
        match skipWs rest with
        | [] => .syntaxError
        | c2 :: rest2 =>
          if c2 = 93 then .ok (.arr []) rest2
          else parseElements fuel (c2 :: rest2) []
      else if c = 34 then
        match parseStringBody rest with
        | some (s, r) => .ok (.str s) r
        | none => .syntaxError
      else if c = 45 ∨ isDigit c then
        match parseNumber (c :: rest) with
        | some (n, r) => .ok (.num n) r
        | none => .syntaxError
      else
        match stripLit [116, 114, 117, 101] (c :: rest) with
        | some r => .ok (.bool true) r
        | none =>
          match stripLit [102, 97, 108, 115, 101] (c :: rest) with
          | some r => .ok (.bool false) r
          | none =>
            match stripLit [110, 117, 108, 108] (c :: rest) with
            | some r => .ok .null r
            | none => .syntaxError
/-- Reads the elements of an array after `[`, up to and including `]`. -/
def parseElements : Nat → List Nat → List JVal → PResult JVal
  | 0, _, _ => .outOfFuel
  | fuel + 1, input, acc =>
    match parseValue fuel input with
    | .ok v r =>
      match skipWs r with
      | [] => .syntaxError
      | c :: r2 =>
        if c = 44 then parseElements fuel r2 (acc ++ [v])
        else if c = 93 then .ok (.arr (acc ++ [v])) r2
        else .syntaxError
    | .syntaxError => .syntaxError
    | .outOfFuel => .outOfFuel
/-- Reads the members of an object after `{`, up to and including `}`. -/
def parseMembers : Nat → List Nat → List (JsString × JVal) → PResult JVal
  | 0, _, _ => .outOfFuel
  | fuel + 1, input, acc =>
    match skipWs input with
    | [] => .syntaxError
    | q :: r0 =>
      if q = 34 then
        match parseStringBody r0 with
        | none => .syntaxError
        | some (k, r1) =>
          match skipWs r1 with
          | [] => .syntaxError
          | colon :: r2 =>
            if colon = 58 then
              match parseValue fuel r2 with
              | .ok v r3 =>
                match skipWs r3 with
                | [] => .syntaxError
                | c :: r4 =>
                  if c = 44 then parseMembers fuel r4 (acc ++ [(k, v)])
                  else if c = 125 then .ok (.obj (acc ++ [(k, v)])) r4
                  else .syntaxError
              | .syntaxError => .syntaxError
              | .outOfFuel => .outOfFuel
            else .syntaxError
      else .syntaxError
end

/-- The function `JSON.parse` on a string: the parsed value, or `none` when it
throws a SyntaxError. -/
def JSON_parse (text : JsString) : Option JVal :=
  match parseValue (2 * text.length + 2) text with
  | .ok v rest => if (skipWs rest).isEmpty then some v else none
  | .syntaxError => none
  | .outOfFuel => none

/-! ## Base64 -/

/-- Character of a sextet in the standard base64 alphabet. -/
def b64Char (n : Nat) : Nat :=
  if n < 26 then 65 + n
  else if n < 52 then 71 + n
  else if n < 62 then n - 4
  else if n = 62 then 43 else 47

/-- Modelled from the spec: the engine (`python-bridge.py`, not among the
sources) returns the audio as `audio_data: base64 string`; this is the standard
padded base64 encoding (RFC 4648) of a byte sequence. -/
def base64Encode : List Nat → JsString
  | [] => []
  | [a] => [b64Char (a / 4), b64Char (a % 4 * 16), 61, 61]
  | [a, b] => [b64Char (a / 4), b64Char (a % 4 * 16 + b / 16), b64Char (b % 16 * 4), 61]
  | a :: b :: c :: rest =>
    b64Char (a / 4) :: b64Char (a % 4 * 16 + b / 16) :: b64Char (b % 16 * 4 + c / 64) ::
      b64Char (c % 64) :: base64Encode rest

/-- Sextet of a character, in the standard or the URL-safe alphabet; `none`
for any other character. -/
def unbase64 (c : Nat) : Option Nat :=
  if 65 ≤ c ∧ c ≤ 90 then some (c - 65)
  else if 97 ≤ c ∧ c ≤ 122 then some (c - 71)
  else if 48 ≤ c ∧ c ≤ 57 then some (c + 4)
  else if c = 43 ∨ c = 45 then some 62
  else if c = 47 ∨ c = 95 then some 63
  else none

/-- Bytes of a run of sextets: three bytes per four sextets, then one byte for
two trailing sextets, two for three, none for one. -/
def decodeSextets : List Nat → List Nat
  | a :: b :: c :: d :: rest =>
    (a * 4 + b / 16) :: (b % 16 * 16 + c / 4) :: (c % 4 * 64 + d) :: decodeSextets rest
  | [a, b, c] => [a * 4 + b / 16, b % 16 * 16 + c / 4]
  | [a, b] => [a * 4 + b / 16]
  | _ => []

/-- The call `Buffer.from(s, 'base64')` on a string, as Node's decoder does it:
each code unit is read by its low byte, characters outside the alphabets
(whitespace included) are skipped and decoding stops at the first padding
character. -/
def bufferFromBase64 (s : JsString) : List Nat :=
  decodeSextets
    (((s.map (fun c => c % 256)).takeWhile (fun c => c != 61)).filterMap unbase64)

/-! ## Heap, platform, child processes -/

/-- Reference to an array on the heap. -/
abbrev Ref := Nat

/-- The arrays of strings alive in the program, by reference. -/
structure Heap where
  arrays : List (List JsString)

/-- Allocates a new array: its reference and the extended heap. -/
def Heap.alloc (h : Heap) (xs : List JsString) : Ref × Heap :=
  (h.arrays.length, ⟨h.arrays ++ [xs]⟩)

/-- Contents of the array at a reference. -/
def Heap.read (h : Heap) (r : Ref) : List JsString := h.arrays.getD r []

/-- Replaces the contents of the array at a reference: the effect of any
in-place mutation (`push`, `pop`, `splice`, `sort`, an index or `length`
assignment) through that reference. -/
def Heap.write (h : Heap) (r : Ref) (xs : List JsString) : Heap := ⟨h.arrays.set r xs⟩

/-- A JavaScript `Error`. -/
structure JsError where
  message : JsString

/-- What the bridge takes from its host and does not compute itself. -/
structure Platform where
  /-- The module variable `__dirname`. -/
  dirname : JsString
  /-- The function `path.join` of two segments. -/
  pathJoin : JsString → JsString → JsString
  /-- Message of the SyntaxError `JSON.parse` throws on a text it rejects. -/
  syntaxErrorMessage : JsString → JsString
  /-- Message of the TypeError thrown by reading a property of `null`. -/
  nullPropertyMessage : JsString → JsString
  /-- ToString of a number, an array or an object: the string, or the
  TypeError it throws. -/
  toStringOf : JVal → Except JsError JsString
  /-- Message of the TypeError `Buffer.from` throws on `undefined`, `null`, a
  boolean or a number. -/
  bufferArgMessage : JsValue → JsString
  /-- The call `Buffer.from(v, 'base64')` on an array or an object: the
  buffer, or the TypeError it throws. -/
  bufferFromObject : JVal → Except JsError (List Nat)

/-- One `data` event of a child process; a chunk is the text
`data.toString()` gives. -/
inductive StreamEvent where
  | stdoutData (chunk : JsString)
  | stderrData (chunk : JsString)

/-- A child process from launch to `close`: its `data` events in order and its
exit code (`none` is `null`: ended by a signal). -/
structure ProcessRun where
  events : List StreamEvent
  code : Option Int

/-- A call `spawn(command, args)`. -/
structure SpawnCall where
  command : JsString
  args : List JsString
deriving DecidableEq

/-- The external engine: the run each launch produces. -/
abbrev Engine := SpawnCall → ProcessRun

/-- The function `spawn`: the run of the process it launches, or the exception
it throws when the operating system refuses the launch (`E2BIG` for an
argument too long to pass). -/
abbrev Spawn := SpawnCall → Except JsError ProcessRun

/-- The variables `stdout` and `stderr` of `generate`. -/
structure Captured where
  stdout : JsString
  stderr : JsString

/-- The two `data` listeners of `generate`. -/
def onData (st : Captured) : StreamEvent → Captured
  | .stdoutData d => { st with stdout := st.stdout ++ d }
  | .stderrData d => { st with stderr := st.stderr ++ d }

/-- Both variables when `close` fires, starting from `''`. -/
def capture (events : List StreamEvent) : Captured := events.foldl onData ⟨[], []⟩

/-- What `generate` resolves with. -/
inductive Resolved where
  /-- The value of `result.output_path`. -/
  | value (v : JsValue)
  /-- A `Buffer` with these bytes. -/
  | buffer (bytes : List Nat)

/-- How a promise is settled. -/
inductive Settlement (α : Type) where
  | resolve (v : α)
  | reject (e : JsError)

/-- Result of a call: the processes it spawned and what its `close` listener
did, `Except.error` being an exception that escapes the listener. -/
structure CallResult (α : Type) where
  spawned : List SpawnCall
  outcome : Except JsError (Settlement α)

/-! ## class KittenTTS -/

/-- Fields of a `KittenTTS` object. -/
structure KittenTTS where
  modelName : JsString
  pythonScript : JsString
  availableVoices : Ref

/-- The array literal of the constructor. -/
def voiceCatalog : List JsString :=
  [js "expr-voice-2-m", js "expr-voice-2-f", js "expr-voice-3-m", js "expr-voice-3-f",
   js "expr-voice-4-m", js "expr-voice-4-f", js "expr-voice-5-m", js "expr-voice-5-f"]

/-- The constructor; `modelName = none` is an omitted argument. -/
def KittenTTS.new (P : Platform) (h : Heap) (modelName : Option JsString) : KittenTTS × Heap :=
  let (r, h1) := h.alloc voiceCatalog
  ({ modelName := modelName.getD (js "KittenML/kitten-tts-nano-0.2"),
     pythonScript := P.pathJoin P.dirname (js "python-bridge.py"),
     availableVoices := r }, h1)

/-- Lowercase hexadecimal digit of a value below 16. -/
def hexDigit (n : Nat) : Nat := if n < 10 then 48 + n else 87 + n

/-- The escape of one code unit as four hexadecimal digits. -/
def unicodeEscape (c : Nat) : List Nat :=
  [92, 117, hexDigit (c / 4096 % 16), hexDigit (c / 256 % 16), hexDigit (c / 16 % 16),
   hexDigit (c % 16)]

/-- Leading surrogate. -/
def isHighSurrogate (c : Nat) : Bool := 55296 ≤ c && c ≤ 56319

/-- Trailing surrogate. -/
def isLowSurrogate (c : Nat) : Bool := 56320 ≤ c && c ≤ 57343

/-- One code unit outside a surrogate pair, as QuoteJSONString writes it: a
short escape, a lowercase hexadecimal escape for the other control characters
and for a lone surrogate, or the unit itself. -/
def quoteUnit (c : Nat) : List Nat :=
  if c = 8 then [92, 98] else if c = 9 then [92, 116] else if c = 10 then [92, 110]
  else if c = 12 then [92, 102] else if c = 13 then [92, 114]
  else if c = 34 then [92, 34] else if c = 92 then [92, 92]
  else if c < 32 ∨ isHighSurrogate c ∨ isLowSurrogate c then unicodeEscape c
  else [c]

/-- The characters of a string between the quotes QuoteJSONString adds: a
surrogate pair is kept, any other code unit goes through `quoteUnit`. -/
def quoteBody : JsString → List Nat
  | [] => []
  | [c] => quoteUnit c
  | c :: d :: rest =>
    if isHighSurrogate c ∧ isLowSurrogate d then c :: d :: quoteBody rest
    else quoteUnit c ++ quoteBody (d :: rest)

/-- The abstract operation QuoteJSONString. -/
def quoteJSONString (s : JsString) : JsString := 34 :: quoteBody s ++ [34]

/-- The call `JSON.stringify({text, voice, model, output_path})` of `generate`,
for strings and a `null` or string `output_path`. -/
def stringifyRequest (text voice model : JsString) (outputPath : Option JsString) : JsString :=
  js "\x7b\"text\":" ++ quoteJSONString text ++ js ",\"voice\":" ++ quoteJSONString voice ++
    js ",\"model\":" ++ quoteJSONString model ++ js ",\"output_path\":" ++
    (match outputPath with
     | none => js "null"
     | some p => quoteJSONString p) ++ js "\x7d"

/-- The read `result.key` for the keys the bridge reads (`error`, `output_path`,
`audio_data`), none of which is inherited from a prototype: a TypeError on
`null`, the own property on an object, `undefined` on anything else. -/
def getProperty (P : Platform) (result : JVal) (key : JsString) : Except JsError JsValue :=
  match result with
  | .null => .error ⟨P.nullPropertyMessage key⟩
  | .obj members => .ok (lookupMember key members)
  | _ => .ok none

/-- ToString of a parsed value, as `new Error(v)` applies it. -/
def toStringValue (P : Platform) (v : JVal) : Except JsError JsString :=
  match v with
  | .str s => .ok s
  | .null => .ok (js "null")
  | .bool true => .ok (js "true")
  | .bool false => .ok (js "false")
  | .num n => P.toStringOf (.num n)
  | .arr xs => P.toStringOf (.arr xs)
  | .obj ms => P.toStringOf (.obj ms)

/-- The call `Buffer.from(v, 'base64')`. -/
def bufferFrom (P : Platform) (v : JsValue) : Except JsError (List Nat) :=
  match v with
  | some (.str s) => .ok (bufferFromBase64 s)
  | some (.arr xs) => P.bufferFromObject (.arr xs)
  | some (.obj ms) => P.bufferFromObject (.obj ms)
  | other => .error ⟨P.bufferArgMessage other⟩

/-- The test `if (outputPath)`: a non-empty string. -/
def pathRequested (outputPath : Option JsString) : Bool :=
  match outputPath with
  | none => false
  | some p => !p.isEmpty

/-- The `try` block of the `close` listener of `generate`: it settles the
promise or throws. -/
def tryBlock (P : Platform) (outputPath : Option JsString) (stdout : JsString) :
    Except JsError (Settlement Resolved) :=
  match JSON_parse (trim stdout) with
  | none => .error ⟨P.syntaxErrorMessage (trim stdout)⟩
  | some result =>
    match getProperty P result (js "error") with
    | .error e => .error e
    | .ok err =>
      if truthy err then
        match err with
        | none => .ok (.reject ⟨[]⟩) -- not reached: `undefined` is falsy
        | some v =>
          match toStringValue P v with
          | .error e => .error e
          | .ok msg => .ok (.reject ⟨msg⟩)
      else if pathRequested outputPath then
        match getProperty P result (js "output_path") with
        | .error e => .error e
        | .ok p => .ok (.resolve (.value p))
      else
        match getProperty P result (js "audio_data") with
        | .error e => .error e
        | .ok a =>
          match bufferFrom P a with
          | .error e => .error e
          | .ok bytes => .ok (.resolve (.buffer bytes))

/-- The `close` listener of `generate`. -/
def onClose (P : Platform) (outputPath : Option JsString) (cap : Captured) (code : Option Int) :
    Except JsError (Settlement Resolved) :=
  if code ≠ some 0 then
    .ok (.reject ⟨js "Python process failed: " ++ cap.stderr⟩)
  else
    match tryBlock P outputPath cap.stdout with
    | .ok s => .ok s
    | .error parseError => .ok (.reject ⟨js "Failed to parse Python output: " ++ parseError.message⟩)

/-- The call `spawn('python3', args)` of `generate`. -/
def KittenTTS.generateCall (this : KittenTTS) (text voice : JsString)
    (outputPath : Option JsString) : SpawnCall :=
  ⟨js "python3", [this.pythonScript, js "generate",
    stringifyRequest text voice this.modelName outputPath]⟩

/-- The call `spawn('python3', args)` of `isModelAvailable`. -/
def KittenTTS.checkCall (this : KittenTTS) : SpawnCall :=
  ⟨js "python3", [this.pythonScript, js "check"]⟩

/-- The method `generate`, with `spawn` as an input; `voice = none` and
`outputPath = none` are omitted arguments (`outputPath = none` is also an
explicit `null`). An exception `spawn` throws is thrown inside the executor of
the promise, which rejects with it; no process exists then. -/
def KittenTTS.generateWith (P : Platform) (spawn : Spawn) (h : Heap) (this : KittenTTS)
    (text : JsString) (voice : Option JsString) (outputPath : Option JsString) :
    CallResult Resolved :=
  let voice := voice.getD (js "expr-voice-2-f")
  if !includes (h.read this.availableVoices) voice then
    { spawned := [],
      outcome := .ok (.reject ⟨js "Invalid voice. Available voices: " ++
        join (js ", ") (h.read this.availableVoices)⟩) }
  else
    let call := this.generateCall text voice outputPath
    match spawn call with
    | .error e => { spawned := [], outcome := .ok (.reject e) }
    | .ok python =>
      { spawned := [call],
        outcome := onClose P outputPath (capture python.events) python.code }

/-- The method `generate` on a host where `spawn` launches every call it is
given: the process runs as the engine says. -/
def KittenTTS.generate (P : Platform) (engine : Engine) (h : Heap) (this : KittenTTS)
    (text : JsString) (voice : Option JsString) (outputPath : Option JsString) :
    CallResult Resolved :=
  this.generateWith P (fun call => .ok (engine call)) h text voice outputPath

/-- The method `generateToFile`. -/
def KittenTTS.generateToFile (P : Platform) (engine : Engine) (h : Heap) (this : KittenTTS)
    (text : JsString) (outputPath : JsString) (voice : Option JsString) : CallResult Resolved :=
  this.generate P engine h text voice (some outputPath)

/-- The method `getAvailableVoices`: a new array with the same elements. -/
def KittenTTS.getAvailableVoices (h : Heap) (this : KittenTTS) : Ref × Heap :=
  h.alloc (h.read this.availableVoices)

/-- The method `isModelAvailable`. -/
def KittenTTS.isModelAvailable (engine : Engine) (this : KittenTTS) : CallResult Bool :=
  let call := this.checkCall
  let python := engine call
  { spawned := [call], outcome := .ok (.resolve (decide (python.code = some 0))) }

/-! ## Callers and sample environments -/

/-- What a caller does between two calls of `generate`: call
`getAvailableVoices`, or mutate an array in place. -/
inductive ClientStep where
  | callGetVoices
  | mutate (r : Ref) (contents : List JsString)

/-- A caller: the heap and the arrays `getAvailableVoices` has returned to it. -/
structure Client where
  heap : Heap
  returned : List Ref

/-- One step of a caller that mutates only arrays `getAvailableVoices` returned. -/
def clientStep (this : KittenTTS) (c : Client) : ClientStep → Client
  | .callGetVoices =>
    ⟨(this.getAvailableVoices c.heap).2, (this.getAvailableVoices c.heap).1 :: c.returned⟩
  | .mutate r contents =>
    if r ∈ c.returned then ⟨c.heap.write r contents, c.returned⟩ else c

/-- Text on the standard error stream, chunk by chunk. -/
def stderrChunks : List StreamEvent → List JsString
  | [] => []
  | .stderrData d :: rest => d :: stderrChunks rest
  | .stdoutData _ :: rest => stderrChunks rest

/-- Text on the standard output stream, chunk by chunk. -/
def stdoutChunks : List StreamEvent → List JsString
  | [] => []
  | .stdoutData d :: rest => d :: stdoutChunks rest
  | .stderrData _ :: rest => stdoutChunks rest

/-- A host for examples: POSIX `path.join` of clean segments and fixed messages. -/
def demoPlatform : Platform where
  dirname := js "/srv/kitten-tts"
  pathJoin := fun a b => a ++ js "/" ++ b
  syntaxErrorMessage := fun _ => js "Unexpected token"
  nullPropertyMessage := fun _ => js "Cannot read properties of null"
  toStringOf := fun _ => .ok (js "[object Object]")
  bufferArgMessage := fun _ => js "The first argument must be of type string"
  bufferFromObject := fun _ => .ok []

/-- A stub engine: every launch prints `out` on stdout and `err` on stderr, in
one chunk each, and exits with `code`. -/
def stubEngine (out err : JsString) (code : Option Int) : Engine :=
  fun _ => ⟨[.stdoutData out, .stderrData err], code⟩

/-- Bytes of one code unit outside a surrogate pair in UTF-8; a lone surrogate
is written as U+FFFD, three bytes. -/
def utf8UnitLength (c : Nat) : Nat := if c < 128 then 1 else if c < 2048 then 2 else 3

/-- Bytes of a string in UTF-8, the form in which `spawn` passes an argument
to the operating system; a surrogate pair is four bytes. -/
def utf8Length : JsString → Nat
  | [] => 0
  | [c] => utf8UnitLength c
  | c :: d :: rest =>
    if isHighSurrogate c ∧ isLowSurrogate d then 4 + utf8Length rest
    else utf8UnitLength c + utf8Length (d :: rest)

/-- The function `spawn` on Linux, as far as the length of one argument goes:
an argument of 131072 bytes or more (`MAX_ARG_STRLEN`, its final zero byte
counted) makes it throw `spawn E2BIG`; any other call is launched. -/
def linuxSpawn (engine : Engine) : Spawn :=
  fun call =>
    if call.args.any (fun a => decide (131072 ≤ utf8Length a)) then .error ⟨js "spawn E2BIG"⟩
    else .ok (engine call)

/-- Modelled from the spec: the response object `\x7baudio_data: base64 string\x7d`
the engine (`python-bridge.py`, not among the sources) prints, with optional
JSON whitespace `w1` to `w4` between its tokens. -/
def audioResponse (w1 w2 w3 w4 : List Nat) (audio : JsString) : JsString :=
  123 :: (w1 ++ (34 :: (js "audio_data" ++ (34 :: (w2 ++ (58 :: (w3 ++ (34 :: (audio ++
    (34 :: (w4 ++ [125])))))))))))

/-- A code unit a JSON string holds as itself. -/
def isPlain (c : Nat) : Bool := c != 34 && c != 92 && !decide (c < 32)

/-- The `output_path` member of the request, as a parsed value. -/
def pathValue : Option JsString → JVal
  | none => .null
  | some p => .str p

/-- The state a caller can reach keeps the array of the object intact: it holds
the catalog, and no array returned by `getAvailableVoices` is that array. -/
structure ClientInv (this : KittenTTS) (c : Client) : Prop where
  live : this.availableVoices < c.heap.arrays.length
  catalog : c.heap.read this.availableVoices = voiceCatalog
  apart : ∀ r ∈ c.returned, r ≠ this.availableVoices

/-! ## Auxiliary facts -/

theorem read_alloc (h : Heap) (xs : List JsString) : (h.alloc xs).2.read (h.alloc xs).1 = xs := by
  simp [Heap.alloc, Heap.read, List.getD_eq_getElem?_getD]

theorem new_reads_catalog (P : Platform) (h : Heap) (modelName : Option JsString) :
    (KittenTTS.new P h modelName).2.read (KittenTTS.new P h modelName).1.availableVoices
      = voiceCatalog := by
  simp [KittenTTS.new, read_alloc]

theorem includes_iff (xs : List JsString) (v : JsString) : includes xs v = true ↔ v ∈ xs := by
  simp [includes]

theorem infix_join (sep : JsString) (xs : List JsString) (v : JsString) (hv : v ∈ xs) :
    v <:+: join sep xs := by
  induction xs with
  | nil => cases hv
  | cons x rest ih =>
    cases rest with
    | nil =>
      have : v = x := by simpa using hv
      subst this
      exact List.infix_refl _
    | cons y rest2 =>
      rcases List.mem_cons.1 hv with hx | hr
      · subst hx
        exact ⟨[], sep ++ join sep (y :: rest2), by simp [join]⟩
      · obtain ⟨a, b, hab⟩ := ih hr
        exact ⟨x ++ sep ++ a, b, by simp [join, ← hab]⟩

theorem capture_stderr_from (evs : List StreamEvent) (st : Captured) :
    (evs.foldl onData st).stderr = st.stderr ++ (stderrChunks evs).flatten := by
  induction evs generalizing st with
  | nil => simp [stderrChunks]
  | cons e rest ih =>
    cases e with
    | stdoutData d => simp [List.foldl, onData, stderrChunks, ih]
    | stderrData d => simp [List.foldl, onData, stderrChunks, ih]

theorem capture_stdout_from (evs : List StreamEvent) (st : Captured) :
    (evs.foldl onData st).stdout = st.stdout ++ (stdoutChunks evs).flatten := by
  induction evs generalizing st with
  | nil => simp [stdoutChunks]
  | cons e rest ih =>
    cases e with
    | stdoutData d => simp [List.foldl, onData, stdoutChunks, ih]
    | stderrData d => simp [List.foldl, onData, stdoutChunks, ih]

theorem capture_stderr (evs : List StreamEvent) :
    (capture evs).stderr = (stderrChunks evs).flatten := by
  simp [capture, capture_stderr_from]

theorem capture_stdout (evs : List StreamEvent) :
    (capture evs).stdout = (stdoutChunks evs).flatten := by
  simp [capture, capture_stdout_from]

/-- A catalog voice passes the check of `generate`, which then launches the
engine once and hands its run to the `close` listener. -/
theorem generate_valid (P : Platform) (engine : Engine) (h : Heap) (modelName : Option JsString)
    (text voice : JsString) (outputPath : Option JsString) (hv : voice ∈ voiceCatalog) :
    (KittenTTS.new P h modelName).1.generate P engine (KittenTTS.new P h modelName).2 text
      (some voice) outputPath =
    { spawned := [(KittenTTS.new P h modelName).1.generateCall text voice outputPath],
      outcome := onClose P outputPath
        (capture (engine ((KittenTTS.new P h modelName).1.generateCall text voice outputPath)).events)
        (engine ((KittenTTS.new P h modelName).1.generateCall text voice outputPath)).code } := by
  have hinc : includes voiceCatalog voice = true := (includes_iff _ _).2 hv
  simp [KittenTTS.generate, KittenTTS.generateWith, new_reads_catalog, hinc]

theorem onClose_settles (P : Platform) (outputPath : Option JsString) (cap : Captured)
    (code : Option Int) : ∃ s, onClose P outputPath cap code = .ok s := by
  unfold onClose
  by_cases hc : code = some 0
  · simp only [hc, ne_eq, not_true_eq_false, if_false]
    cases tryBlock P outputPath cap.stdout with
    | ok s => exact ⟨s, rfl⟩
    | error e => exact ⟨_, rfl⟩
  · simp only [ne_eq, hc, not_false_eq_true, if_true]
    exact ⟨_, rfl⟩

theorem generate_settles (P : Platform) (engine : Engine) (h : Heap) (this : KittenTTS)
    (text : JsString) (voice outputPath : Option JsString) :
    ∃ s, (this.generate P engine h text voice outputPath).outcome = .ok s := by
  unfold KittenTTS.generate KittenTTS.generateWith
  by_cases hinc : includes (h.read this.availableVoices) (voice.getD (js "expr-voice-2-f")) = true
  · simp only [hinc, Bool.not_true, Bool.false_eq_true, if_false]
    exact onClose_settles _ _ _ _
  · simp only [hinc, Bool.not_false, if_true]
    exact ⟨_, rfl⟩

theorem write_read_ne (h : Heap) (r r2 : Ref) (xs : List JsString) (hne : r2 ≠ r) :
    (h.write r xs).read r2 = h.read r2 := by
  simp [Heap.write, Heap.read, List.getD_eq_getElem?_getD, List.getElem?_set, hne.symm]

theorem alloc_read_old (h : Heap) (r : Ref) (xs : List JsString) (hr : r < h.arrays.length) :
    (h.alloc xs).2.read r = h.read r := by
  simp [Heap.alloc, Heap.read, List.getD_eq_getElem?_getD, List.getElem?_append_left hr]

theorem clientStep_inv (this : KittenTTS) (c : Client) (st : ClientStep)
    (hc : ClientInv this c) : ClientInv this (clientStep this c st) := by
  cases st with
  | callGetVoices =>
    refine ⟨?_, ?_, ?_⟩
    · have := hc.live
      simp only [clientStep, KittenTTS.getAvailableVoices, Heap.alloc, List.length_append,
        List.length_singleton]
      exact Nat.lt_succ_of_lt this
    · simp only [clientStep, KittenTTS.getAvailableVoices]
      rw [alloc_read_old _ _ _ hc.live]
      exact hc.catalog
    · intro r hr
      simp only [clientStep, KittenTTS.getAvailableVoices, List.mem_cons] at hr
      rcases hr with hr | hr
      · have := hc.live
        simp only [Heap.alloc] at hr
        rw [hr]
        exact Nat.ne_of_gt this
      · exact hc.apart r hr
  | mutate r contents =>
    by_cases hr : r ∈ c.returned
    · simp only [clientStep, hr, if_true]
      refine ⟨?_, ?_, hc.apart⟩
      · simpa [Heap.write] using hc.live
      · rw [write_read_ne _ _ _ _ (Ne.symm (hc.apart r hr))]
        exact hc.catalog
    · simp only [clientStep, hr, if_false]
      exact hc

theorem clientRun_inv (this : KittenTTS) (steps : List ClientStep) (c : Client)
    (hc : ClientInv this c) : ClientInv this (steps.foldl (clientStep this) c) := by
  induction steps generalizing c with
  | nil => exact hc
  | cons st rest ih => exact ih _ (clientStep_inv this c st hc)

theorem new_inv (P : Platform) (h : Heap) (modelName : Option JsString) :
    ClientInv (KittenTTS.new P h modelName).1 ⟨(KittenTTS.new P h modelName).2, []⟩ := by
  refine ⟨?_, new_reads_catalog P h modelName, ?_⟩
  · simp [KittenTTS.new, Heap.alloc]
  · intro r hr
    cases hr

theorem generate_heap_congr (P : Platform) (engine : Engine) (h1 h2 : Heap) (this : KittenTTS)
    (text : JsString) (voice outputPath : Option JsString)
    (hread : h1.read this.availableVoices = h2.read this.availableVoices) :
    this.generate P engine h1 text voice outputPath
      = this.generate P engine h2 text voice outputPath := by
  simp [KittenTTS.generate, KittenTTS.generateWith, hread]

theorem parseStringBody_quote (rest : List Nat) :
    parseStringBody (34 :: rest) = some ([], rest) := by
  unfold parseStringBody
  simp

theorem parseStringBody_plain_cons (c : Nat) (rest : List Nat) (hc : isPlain c = true) :
    parseStringBody (c :: rest) =
      match parseStringBody rest with
      | some (s, r) => some (c :: s, r)
      | none => none := by
  simp only [isPlain, Bool.and_eq_true, bne_iff_ne, ne_eq, Bool.not_eq_true',
    decide_eq_false_iff_not] at hc
  obtain ⟨⟨h34, h92⟩, h32⟩ := hc
  conv => lhs; unfold parseStringBody
  simp only [h34, h92, h32, if_false]

theorem parseStringBody_plain (s : JsString) (rest : List Nat)
    (hs : ∀ c ∈ s, isPlain c = true) :
    parseStringBody (s ++ 34 :: rest) = some (s, rest) := by
  induction s with
  | nil => exact parseStringBody_quote rest
  | cons c t ih =>
    have hc := hs c (List.mem_cons_self _ _)
    have iht := ih (fun d hd => hs d (List.mem_cons_of_mem _ hd))
    rw [List.cons_append, parseStringBody_plain_cons _ _ hc, iht]

theorem skipWs_append (w : List Nat) (d : Nat) (rest : List Nat)
    (hw : ∀ c ∈ w, isJsonWs c = true) (hd : isJsonWs d = false) :
    skipWs (w ++ d :: rest) = d :: rest := by
  induction w with
  | nil => simp [skipWs, List.dropWhile, hd]
  | cons c t ih =>
    have hc := hw c (List.mem_cons_self _ _)
    have iht := ih (fun x hx => hw x (List.mem_cons_of_mem _ hx))
    simp only [skipWs] at iht
    simp [skipWs, List.dropWhile, hc, iht]

theorem skipWs_cons (d : Nat) (rest : List Nat) (hd : isJsonWs d = false) :
    skipWs (d :: rest) = d :: rest := skipWs_append [] d rest (by simp) hd

theorem parseValue_audioResponse (n : Nat) (w1 w2 w3 w4 : List Nat) (audio : JsString)
    (h1 : ∀ c ∈ w1, isJsonWs c = true) (h2 : ∀ c ∈ w2, isJsonWs c = true)
    (h3 : ∀ c ∈ w3, isJsonWs c = true) (h4 : ∀ c ∈ w4, isJsonWs c = true)
    (ha : ∀ c ∈ audio, isPlain c = true) :
    parseValue (n + 3) (audioResponse w1 w2 w3 w4 audio)
      = .ok (.obj [(js "audio_data", .str audio)]) [] := by
  have hkey : ∀ c ∈ js "audio_data", isPlain c = true := by decide
  unfold audioResponse
  rw [parseValue, skipWs_cons _ _ (by decide)]
  simp only [if_true]
  rw [skipWs_append w1 34 _ h1 (by decide)]
  simp only [show (34 : Nat) ≠ 125 by decide, if_false]
  rw [parseMembers, skipWs_cons _ _ (by decide)]
  simp only [if_true]
  rw [parseStringBody_plain _ _ hkey]
  simp only []
  rw [skipWs_append w2 58 _ h2 (by decide)]
  simp only [if_true]
  rw [parseValue, skipWs_append w3 34 _ h3 (by decide)]
  simp only [show (34 : Nat) ≠ 123 by decide, show (34 : Nat) ≠ 91 by decide, if_false, if_true]
  rw [parseStringBody_plain _ _ ha]
  simp only []
  rw [skipWs_append w4 125 _ h4 (by decide)]
  simp [show (125 : Nat) ≠ 44 by decide]

theorem dropWhile_append_all (p : Nat → Bool) (w l : List Nat) (hw : ∀ c ∈ w, p c = true) :
    (w ++ l).dropWhile p = l.dropWhile p := by
  induction w with
  | nil => rfl
  | cons c t ih =>
    have hc := hw c (List.mem_cons_self _ _)
    simp [List.dropWhile, hc, ih (fun x hx => hw x (List.mem_cons_of_mem _ hx))]

theorem trim_surround (pre post mid : List Nat) (c d : Nat)
    (hpre : ∀ x ∈ pre, isJsWhiteSpace x = true) (hpost : ∀ x ∈ post, isJsWhiteSpace x = true)
    (hc : isJsWhiteSpace c = false) (hd : isJsWhiteSpace d = false) :
    trim (pre ++ (c :: (mid ++ [d])) ++ post) = c :: (mid ++ [d]) := by
  unfold trim
  rw [List.append_assoc, dropWhile_append_all _ _ _ hpre]
  rw [List.cons_append, List.dropWhile_cons_of_neg (by simp [hc])]
  rw [List.rdropWhile]
  have hrev : (c :: (mid ++ [d] ++ post)).reverse = post.reverse ++ (d :: (c :: mid).reverse) := by
    simp
  rw [hrev, dropWhile_append_all _ _ _ (fun x hx => hpost x (List.mem_reverse.1 hx))]
  rw [List.dropWhile_cons_of_neg (by simp [hd])]
  simp

theorem unbase64_b64Char (n : Nat) (hn : n < 64) : unbase64 (b64Char n) = some n := by
  interval_cases n <;> rfl

theorem b64Char_not_pad (n : Nat) (hn : n < 64) : (b64Char n != 61) = true := by
  interval_cases n <;> rfl

theorem b64Char_plain (n : Nat) : isPlain (b64Char n) = true := by
  simp only [isPlain, b64Char, Bool.and_eq_true, bne_iff_ne, ne_eq, Bool.not_eq_true',
    decide_eq_false_iff_not]
  split_ifs <;> omega

theorem base64Encode_plain (b : List Nat) : ∀ c ∈ base64Encode b, isPlain c = true := by
  induction b using base64Encode.induct with
  | case1 => simp [base64Encode]
  | case2 a =>
    intro c hc
    simp only [base64Encode, List.mem_cons, List.mem_singleton, List.not_mem_nil, or_false] at hc
    rcases hc with rfl | rfl | rfl | rfl
    · exact b64Char_plain _
    · exact b64Char_plain _
    · rfl
    · rfl
  | case3 a b =>
    intro c hc
    simp only [base64Encode, List.mem_cons, List.mem_singleton, List.not_mem_nil, or_false] at hc
    rcases hc with rfl | rfl | rfl | rfl
    · exact b64Char_plain _
    · exact b64Char_plain _
    · exact b64Char_plain _
    · rfl
  | case4 a b c rest ih =>
    intro x hx
    simp only [base64Encode, List.mem_cons] at hx
    rcases hx with rfl | rfl | rfl | rfl | hx
    · exact b64Char_plain _
    · exact b64Char_plain _
    · exact b64Char_plain _
    · exact b64Char_plain _
    · exact ih x hx

theorem b64Char_low (n : Nat) : b64Char n % 256 = b64Char n := by
  apply Nat.mod_eq_of_lt
  simp only [b64Char]
  split_ifs <;> omega

theorem base64Encode_low (b : List Nat) :
    (base64Encode b).map (fun c => c % 256) = base64Encode b := by
  induction b using base64Encode.induct with
  | case1 => rfl
  | case2 a => simp [base64Encode, b64Char_low]
  | case3 a b => simp [base64Encode, b64Char_low]
  | case4 a b c rest ih =>
    simp only [base64Encode, List.map_cons, b64Char_low, ih]

theorem decodeSextets_encode (b : List Nat) (hb : ∀ x ∈ b, x < 256) :
    decodeSextets (((base64Encode b).takeWhile (fun c => c != 61)).filterMap unbase64) = b := by
  induction b using base64Encode.induct with
  | case1 => rfl
  | case2 a =>
    have ha : a < 256 := hb a (by simp)
    simp only [base64Encode, List.takeWhile, b64Char_not_pad (a / 4) (by omega),
      b64Char_not_pad (a % 4 * 16) (by omega), List.filterMap,
      unbase64_b64Char (a / 4) (by omega), unbase64_b64Char (a % 4 * 16) (by omega)]
    simp only [show ((61 : Nat) != 61) = false by decide, List.filterMap, decodeSextets]
    congr 1
    omega
  | case3 a b =>
    have ha : a < 256 := hb a (by simp)
    have hb2 : b < 256 := hb b (by simp)
    simp only [base64Encode, List.takeWhile, b64Char_not_pad (a / 4) (by omega),
      b64Char_not_pad (a % 4 * 16 + b / 16) (by omega),
      b64Char_not_pad (b % 16 * 4) (by omega), List.filterMap,
      unbase64_b64Char (a / 4) (by omega), unbase64_b64Char (a % 4 * 16 + b / 16) (by omega),
      unbase64_b64Char (b % 16 * 4) (by omega)]
    simp only [show ((61 : Nat) != 61) = false by decide, List.filterMap, decodeSextets]
    congr 1
    · omega
    · congr 1
      omega
  | case4 a b c rest ih =>
    have ha : a < 256 := hb a (by simp)
    have hb2 : b < 256 := hb b (by simp)
    have hc : c < 256 := hb c (by simp)
    have ih2 := ih (fun x hx => hb x (by simp [hx]))
    simp only [base64Encode, List.takeWhile, b64Char_not_pad (a / 4) (by omega),
      b64Char_not_pad (a % 4 * 16 + b / 16) (by omega),
      b64Char_not_pad (b % 16 * 4 + c / 64) (by omega), b64Char_not_pad (c % 64) (by omega),
      List.filterMap,
      unbase64_b64Char (a / 4) (by omega), unbase64_b64Char (a % 4 * 16 + b / 16) (by omega),
      unbase64_b64Char (b % 16 * 4 + c / 64) (by omega), unbase64_b64Char (c % 64) (by omega),
      decodeSextets, ih2]
    congr 1
    · omega
    · congr 1
      · omega
      · congr 1
        omega

theorem bufferFromBase64_encode (b : List Nat) (hb : ∀ x ∈ b, x < 256) :
    bufferFromBase64 (base64Encode b) = b := by
  unfold bufferFromBase64
  rw [base64Encode_low]
  exact decodeSextets_encode b hb

theorem JSON_parse_of_fuel (text : JsString) (v : JVal) (hlen : text ≠ [])
    (hp : ∀ n, parseValue (n + 3) text = .ok v []) : JSON_parse text = some v := by
  unfold JSON_parse
  have hpos : 0 < text.length := List.length_pos.2 hlen
  have hf : 2 * text.length + 2 = (2 * text.length - 1) + 3 := by omega
  rw [hf, hp]
  rfl

theorem JSON_parse_audioResponse (w1 w2 w3 w4 : List Nat) (audio : JsString)
    (h1 : ∀ c ∈ w1, isJsonWs c = true) (h2 : ∀ c ∈ w2, isJsonWs c = true)
    (h3 : ∀ c ∈ w3, isJsonWs c = true) (h4 : ∀ c ∈ w4, isJsonWs c = true)
    (ha : ∀ c ∈ audio, isPlain c = true) :
    JSON_parse (audioResponse w1 w2 w3 w4 audio)
      = some (.obj [(js "audio_data", .str audio)]) :=
  JSON_parse_of_fuel _ _ (by simp [audioResponse])
    (fun n => parseValue_audioResponse n w1 w2 w3 w4 audio h1 h2 h3 h4 ha)

theorem trim_audioResponse (pre post w1 w2 w3 w4 : List Nat) (audio : JsString)
    (hpre : ∀ x ∈ pre, isJsWhiteSpace x = true) (hpost : ∀ x ∈ post, isJsWhiteSpace x = true) :
    trim (pre ++ audioResponse w1 w2 w3 w4 audio ++ post) = audioResponse w1 w2 w3 w4 audio := by
  have hshape : audioResponse w1 w2 w3 w4 audio
      = 123 :: ((w1 ++ (34 :: (js "audio_data" ++ (34 :: (w2 ++ (58 :: (w3 ++ (34 :: (audio ++
          (34 :: w4)))))))))) ++ [125]) := by
    simp [audioResponse]
  rw [hshape]
  exact trim_surround pre post _ 123 125 hpre hpost (by decide) (by decide)

theorem generate_zero_exit (P : Platform) (engine : Engine) (h : Heap)
    (modelName : Option JsString) (text voice : JsString) (outputPath : Option JsString)
    (hv : voice ∈ voiceCatalog)
    (hcode : (engine ((KittenTTS.new P h modelName).1.generateCall text voice outputPath)).code
      = some 0) :
    ((KittenTTS.new P h modelName).1.generate P engine (KittenTTS.new P h modelName).2 text
        (some voice) outputPath).outcome
      = match tryBlock P outputPath (stdoutChunks
          (engine ((KittenTTS.new P h modelName).1.generateCall text voice outputPath)).events).flatten with
        | .ok s => .ok s
        | .error parseError =>
          .ok (.reject ⟨js "Failed to parse Python output: " ++ parseError.message⟩) := by
  rw [generate_valid P engine h modelName text voice outputPath hv]
  simp only [onClose, hcode, ne_eq, not_true_eq_false, if_false, capture_stdout]

theorem parseStringBody_escape (e : Nat) (tail : List Nat) (he : e ≠ 117) :
    parseStringBody (92 :: e :: tail) =
      match unescape e with
      | some u =>
        match parseStringBody tail with
        | some (s, r) => some (u :: s, r)
        | none => none
      | none => none := by
  conv => lhs; unfold parseStringBody
  simp only [show (92 : Nat) ≠ 34 by decide, if_false, if_true, he]

theorem parseStringBody_unicode (h1 h2 h3 h4 : Nat) (tail : List Nat) :
    parseStringBody (92 :: 117 :: h1 :: h2 :: h3 :: h4 :: tail) =
      match hexVal h1, hexVal h2, hexVal h3, hexVal h4 with
      | some a, some b, some c2, some d =>
        match parseStringBody tail with
        | some (s, r) => some ((((a * 16 + b) * 16 + c2) * 16 + d) :: s, r)
        | none => none
      | _, _, _, _ => none := by
  conv => lhs; unfold parseStringBody
  simp only [show (92 : Nat) ≠ 34 by decide, if_false, if_true]

theorem hexVal_hexDigit (n : Nat) (hn : n < 16) : hexVal (hexDigit n) = some n := by
  interval_cases n <;> rfl

theorem parseStringBody_unicodeEscape (c : Nat) (tail : List Nat) (hc : c < 65536) :
    parseStringBody (unicodeEscape c ++ tail) =
      match parseStringBody tail with
      | some (s, r) => some (c :: s, r)
      | none => none := by
  have hval : ((c / 4096 % 16 * 16 + c / 256 % 16) * 16 + c / 16 % 16) * 16 + c % 16 = c := by
    omega
  simp only [unicodeEscape, List.cons_append, List.nil_append, parseStringBody_unicode,
    hexVal_hexDigit _ (Nat.mod_lt _ (by decide : 0 < 16)), hval]

theorem parseStringBody_quoteUnit (c : Nat) (tail : List Nat) :
    parseStringBody (quoteUnit c ++ tail) =
      match parseStringBody tail with
      | some (s, r) => some (c :: s, r)
      | none => none := by
  unfold quoteUnit
  split_ifs with h8 h9 h10 h12 h13 h34 h92 hesc
  · subst h8; rw [List.cons_append, List.cons_append, parseStringBody_escape _ _ (by decide)]; rfl
  · subst h9; rw [List.cons_append, List.cons_append, parseStringBody_escape _ _ (by decide)]; rfl
  · subst h10; rw [List.cons_append, List.cons_append, parseStringBody_escape _ _ (by decide)]; rfl
  · subst h12; rw [List.cons_append, List.cons_append, parseStringBody_escape _ _ (by decide)]; rfl
  · subst h13; rw [List.cons_append, List.cons_append, parseStringBody_escape _ _ (by decide)]; rfl
  · subst h34; rw [List.cons_append, List.cons_append, parseStringBody_escape _ _ (by decide)]; rfl
  · subst h92; rw [List.cons_append, List.cons_append, parseStringBody_escape _ _ (by decide)]; rfl
  · apply parseStringBody_unicodeEscape
    simp only [isHighSurrogate, isLowSurrogate, Bool.and_eq_true, decide_eq_true_eq] at hesc
    omega
  · rw [List.cons_append, List.nil_append]
    apply parseStringBody_plain_cons
    simp only [isPlain, Bool.and_eq_true, bne_iff_ne, ne_eq, Bool.not_eq_true',
      decide_eq_false_iff_not]
    exact ⟨⟨h34, h92⟩, fun hlt => hesc (Or.inl hlt)⟩

theorem parseStringBody_quoteBody (s : JsString) (rest : List Nat) :
    parseStringBody (quoteBody s ++ 34 :: rest) = some (s, rest) := by
  induction s using quoteBody.induct with
  | case1 => exact parseStringBody_quote rest
  | case2 c =>
    rw [quoteBody, parseStringBody_quoteUnit, parseStringBody_quote]
  | case3 c d t hpair ih =>
    have hc : isPlain c = true := by
      simp only [isHighSurrogate, Bool.and_eq_true, decide_eq_true_eq] at hpair
      simp only [isPlain, Bool.and_eq_true, bne_iff_ne, ne_eq, Bool.not_eq_true',
        decide_eq_false_iff_not]
      omega
    have hd : isPlain d = true := by
      simp only [isLowSurrogate, Bool.and_eq_true, decide_eq_true_eq] at hpair
      simp only [isPlain, Bool.and_eq_true, bne_iff_ne, ne_eq, Bool.not_eq_true',
        decide_eq_false_iff_not]
      omega
    rw [quoteBody, if_pos hpair, List.cons_append, List.cons_append,
      parseStringBody_plain_cons _ _ hc, parseStringBody_plain_cons _ _ hd, ih]
  | case4 c d t hpair ih =>
    rw [quoteBody, if_neg hpair, List.append_assoc, parseStringBody_quoteUnit, ih]

theorem parseValue_quoted (f : Nat) (s : JsString) (rest : List Nat) :
    parseValue (f + 1) (34 :: (quoteBody s ++ 34 :: rest)) = .ok (.str s) rest := by
  rw [parseValue, skipWs_cons _ _ (by decide)]
  simp only [show (34 : Nat) ≠ 123 by decide, show (34 : Nat) ≠ 91 by decide, if_false, if_true,
    parseStringBody_quoteBody]

theorem parseMembers_string_more (f : Nat) (key s : JsString) (rest : List Nat)
    (acc : List (JsString × JVal)) (hkey : ∀ c ∈ key, isPlain c = true) :
    parseMembers (f + 2) (34 :: (key ++ 34 :: 58 :: 34 :: (quoteBody s ++ 34 :: 44 :: rest))) acc
      = parseMembers (f + 1) rest (acc ++ [(key, .str s)]) := by
  rw [parseMembers, skipWs_cons _ _ (by decide)]
  simp only [if_true]
  rw [parseStringBody_plain _ _ hkey]
  simp only []
  rw [skipWs_cons _ _ (by decide)]
  simp only [if_true]
  rw [parseValue_quoted]
  simp only []
  rw [skipWs_cons _ _ (by decide)]
  simp only [if_true]

theorem parseMembers_string_last (f : Nat) (key s : JsString) (rest : List Nat)
    (acc : List (JsString × JVal)) (hkey : ∀ c ∈ key, isPlain c = true) :
    parseMembers (f + 2) (34 :: (key ++ 34 :: 58 :: 34 :: (quoteBody s ++ 34 :: 125 :: rest))) acc
      = .ok (.obj (acc ++ [(key, .str s)])) rest := by
  rw [parseMembers, skipWs_cons _ _ (by decide)]
  simp only [if_true]
  rw [parseStringBody_plain _ _ hkey]
  simp only []
  rw [skipWs_cons _ _ (by decide)]
  simp only [if_true]
  rw [parseValue_quoted]
  simp only []
  rw [skipWs_cons _ _ (by decide)]
  simp only [show (125 : Nat) ≠ 44 by decide, if_false, if_true]

theorem parseMembers_null_last (f : Nat) (key : JsString) (rest : List Nat)
    (acc : List (JsString × JVal)) (hkey : ∀ c ∈ key, isPlain c = true) :
    parseMembers (f + 2) (34 :: (key ++ 34 :: 58 :: 110 :: 117 :: 108 :: 108 :: 125 :: rest)) acc
      = .ok (.obj (acc ++ [(key, .null)])) rest := by
  rw [parseMembers, skipWs_cons _ _ (by decide)]
  simp only [if_true]
  rw [parseStringBody_plain _ _ hkey]
  simp only []
  rw [skipWs_cons _ _ (by decide)]
  simp only [if_true]
  have hnull : parseValue (f + 1) (110 :: 117 :: 108 :: 108 :: 125 :: rest)
      = .ok .null (125 :: rest) := by
    rw [parseValue, skipWs_cons _ _ (by decide)]
    simp [stripLit, isDigit]
  rw [hnull]
  simp only []
  rw [skipWs_cons _ _ (by decide)]
  simp only [show (125 : Nat) ≠ 44 by decide, if_false, if_true]

theorem stringifyRequest_shape (text voice model : JsString) (outputPath : Option JsString) :
    stringifyRequest text voice model outputPath
      = 123 :: 34 :: (js "text" ++ 34 :: 58 :: 34 :: (quoteBody text ++ 34 :: 44 ::
          34 :: (js "voice" ++ 34 :: 58 :: 34 :: (quoteBody voice ++ 34 :: 44 ::
          34 :: (js "model" ++ 34 :: 58 :: 34 :: (quoteBody model ++ 34 :: 44 ::
          (match outputPath with
           | none => 34 :: (js "output_path" ++ 34 :: 58 :: 110 :: 117 :: 108 :: 108 :: 125 :: [])
           | some p => 34 :: (js "output_path" ++ 34 :: 58 :: 34 :: (quoteBody p ++
               34 :: 125 :: []))))))))) := by
  have e1 : js "\x7b\"text\":" = 123 :: 34 :: (js "text" ++ [34, 58]) := rfl
  have e2 : js ",\"voice\":" = 44 :: 34 :: (js "voice" ++ [34, 58]) := rfl
  have e3 : js ",\"model\":" = 44 :: 34 :: (js "model" ++ [34, 58]) := rfl
  have e4 : js ",\"output_path\":" = 44 :: 34 :: (js "output_path" ++ [34, 58]) := rfl
  have e5 : js "\x7d" = [125] := rfl
  have e6 : js "null" = [110, 117, 108, 108] := rfl
  unfold stringifyRequest quoteJSONString
  rw [e1, e2, e3, e4, e5]
  cases outputPath with
  | none => rw [e6]; simp only [List.append_assoc, List.cons_append, List.nil_append]
  | some p => simp only [List.append_assoc, List.cons_append, List.nil_append]

theorem parseValue_stringifyRequest (n : Nat) (text voice model : JsString)
    (outputPath : Option JsString) :
    parseValue (n + 6) (stringifyRequest text voice model outputPath)
      = .ok (.obj [(js "text", .str text), (js "voice", .str voice), (js "model", .str model),
          (js "output_path", pathValue outputPath)]) [] := by
  rw [stringifyRequest_shape, parseValue, skipWs_cons _ _ (by decide)]
  simp only [if_true]
  rw [skipWs_cons _ _ (by decide)]
  simp only [show (34 : Nat) ≠ 125 by decide, if_false]
  rw [parseMembers_string_more _ _ _ _ _ (by decide),
    parseMembers_string_more _ _ _ _ _ (by decide),
    parseMembers_string_more _ _ _ _ _ (by decide)]
  cases outputPath with
  | none =>
    simp only []
    rw [parseMembers_null_last _ _ _ _ (by decide)]
    rfl
  | some p =>
    simp only []
    rw [parseMembers_string_last _ _ _ _ _ (by decide)]
    rfl

theorem JSON_parse_stringifyRequest (text voice model : JsString)
    (outputPath : Option JsString) :
    JSON_parse (stringifyRequest text voice model outputPath)
      = some (.obj [(js "text", .str text), (js "voice", .str voice), (js "model", .str model),
          (js "output_path", pathValue outputPath)]) := by
  unfold JSON_parse
  have hlen : 2 ≤ (stringifyRequest text voice model outputPath).length := by
    rw [stringifyRequest_shape]
    simp only [List.length_cons]
    omega
  have hf : 2 * (stringifyRequest text voice model outputPath).length + 2
      = (2 * (stringifyRequest text voice model outputPath).length - 4) + 6 := by omega
  rw [hf, parseValue_stringifyRequest]
  rfl

theorem skipWs_length_le (s : List Nat) : (skipWs s).length ≤ s.length :=
  (List.dropWhile_suffix _).length_le

theorem parseStringBody_shorter (n : Nat) : ∀ (s : List Nat), s.length ≤ n →
    ∀ (v : JsString) (r : List Nat), parseStringBody s = some (v, r) → r.length < s.length := by
  induction n with
  | zero =>
    intro s hs v r h
    have : s = [] := List.length_eq_zero.1 (Nat.le_zero.1 hs)
    subst this
    simp [parseStringBody] at h
  | succ n ih =>
    intro s hs v r h
    unfold parseStringBody at h
    split at h
    · cases h
    · rename_i c rest
      simp only [List.length_cons] at hs ⊢
      split at h
      · cases h; omega
      · split at h
        · split at h
          · cases h
          · rename_i e rest2
            simp only [List.length_cons] at hs ⊢
            split at h
            · split at h
              · rename_i h1 h2 h3 h4 rest3
                simp only [List.length_cons] at hs ⊢
                split at h
                · split at h
                  · rename_i s2 r2 hrec
                    cases h
                    have := ih rest3 (by omega) _ _ hrec
                    omega
                  · cases h
                · cases h
              · cases h
            · split at h
              · split at h
                · rename_i s2 r2 hrec
                  cases h
                  have := ih rest2 (by omega) _ _ hrec
                  omega
                · cases h
              · cases h
        · split at h
          · cases h
          · split at h
            · rename_i s2 r2 hrec
              cases h
              have := ih rest (by omega) _ _ hrec
              omega
            · cases h

theorem parseIntPart_shorter (s ip r : List Nat) (h : parseIntPart s = some (ip, r)) :
    r.length < s.length := by
  unfold parseIntPart at h
  split at h
  · cases h
  · rename_i c rest
    split at h
    · cases h; simp
    · split at h
      · cases h
        have := (List.dropWhile_suffix isDigit (l := rest)).length_le
        simp only [List.length_cons]
        omega
      · cases h

theorem parseFraction_le (s fp r : List Nat) (h : parseFraction s = some (fp, r)) :
    r.length ≤ s.length := by
  unfold parseFraction at h
  split at h
  · cases h; simp
  · rename_i c rest
    split at h
    · dsimp only at h
      split at h
      · cases h
      · cases h
        have := (List.dropWhile_suffix isDigit (l := rest)).length_le
        simp only [List.length_cons]
        omega
    · cases h; simp

theorem parseExponent_le (s : List Nat) (e : Int) (r : List Nat)
    (h : parseExponent s = some (e, r)) : r.length ≤ s.length := by
  unfold parseExponent at h
  split at h
  · cases h; simp
  · rename_i c rest
    split at h
    · split at h
      · cases h
      · rename_i sg rest2
        dsimp only at h
        by_cases hemp : (List.takeWhile isDigit
            (if sg = 45 ∨ sg = 43 then rest2 else sg :: rest2)).isEmpty = true
        · rw [if_pos hemp] at h; cases h
        · rw [if_neg hemp] at h
          cases h
          simp only [List.length_cons]
          split
          · have := (List.dropWhile_suffix isDigit (l := rest2)).length_le
            omega
          · have := (List.dropWhile_suffix isDigit (l := sg :: rest2)).length_le
            simp only [List.length_cons] at this
            omega
    · cases h; simp

theorem tail_or_self_le (b : Bool) (s : List Nat) :
    (if b = true then s.tail else s).length ≤ s.length := by
  cases b <;> simp

theorem parseNumber_shorter (s : List Nat) (n : JNum) (r : List Nat)
    (h : parseNumber s = some (n, r)) : r.length < s.length := by
  unfold parseNumber at h
  simp only [] at h
  split at h
  · cases h
  · rename_i ip r1 h1
    split at h
    · cases h
    · rename_i fp r2 h2
      split at h
      · cases h
      · rename_i e r3 h3
        cases h
        have a1 := parseIntPart_shorter _ _ _ h1
        have a2 := parseFraction_le _ _ _ h2
        have a3 := parseExponent_le _ _ _ h3
        have a4 := tail_or_self_le (startsWithMinus s) s
        omega

theorem stripLit_shorter (lit s r : List Nat) (hlit : lit ≠ [])
    (h : stripLit lit s = some r) : r.length < s.length := by
  induction lit generalizing s with
  | nil => exact absurd rfl hlit
  | cons l ls ih =>
    cases s with
    | nil => simp [stripLit] at h
    | cons c t =>
      simp only [stripLit] at h
      split at h
      · cases ls with
        | nil =>
          simp only [stripLit] at h
          cases h
          simp
        | cons l2 ls2 =>
          have := ih t (by simp) h
          simp only [List.length_cons]
          omega
      · cases h

theorem skipWs_cons_length (s : List Nat) (c : Nat) (rest : List Nat)
    (h : skipWs s = c :: rest) : rest.length < s.length := by
  have := skipWs_length_le s
  rw [h, List.length_cons] at this
  omega

theorem parse_shorter (f : Nat) :
    (∀ input v r, parseValue f input = .ok v r → r.length < input.length) ∧
    (∀ input acc v r, parseElements f input acc = .ok v r → r.length < input.length) ∧
    (∀ input acc v r, parseMembers f input acc = .ok v r → r.length < input.length) := by
  induction f with
  | zero =>
    refine ⟨?_, ?_, ?_⟩
    · intro input v r h; rw [parseValue] at h; cases h
    · intro input acc v r h; rw [parseElements] at h; cases h
    · intro input acc v r h; rw [parseMembers] at h; cases h
  | succ f ih =>
    obtain ⟨ihV, ihE, ihM⟩ := ih
    refine ⟨?_, ?_, ?_⟩
    · intro input v r h
      rw [parseValue] at h
      split at h
      · cases h
      · rename_i c rest hsk
        have h0 := skipWs_cons_length _ _ _ hsk
        split at h
        · split at h
          · cases h
          · rename_i c2 rest2 hsk2
            have h1 := skipWs_cons_length _ _ _ hsk2
            split at h
            · cases h; omega
            · have h2 := ihM _ _ _ _ h
              simp only [List.length_cons] at h2
              omega
        · split at h
          · split at h
            · cases h
            · rename_i c2 rest2 hsk2
              have h1 := skipWs_cons_length _ _ _ hsk2
              split at h
              · cases h; omega
              · have h2 := ihE _ _ _ _ h
                simp only [List.length_cons] at h2
                omega
          · split at h
            · split at h
              · rename_i s r2 hps
                cases h
                have h1 := parseStringBody_shorter _ rest (Nat.le_refl _) _ _ hps
                omega
              · cases h
            · split at h
              · split at h
                · rename_i n r2 hpn
                  cases h
                  have h1 := parseNumber_shorter _ _ _ hpn
                  simp only [List.length_cons] at h1
                  omega
                · cases h
              · split at h
                · rename_i r2 hl
                  cases h
                  have h1 := stripLit_shorter _ _ _ (by simp) hl
                  simp only [List.length_cons] at h1
                  omega
                · split at h
                  · rename_i r2 hl
                    cases h
                    have h1 := stripLit_shorter _ _ _ (by simp) hl
                    simp only [List.length_cons] at h1
                    omega
                  · split at h
                    · rename_i r2 hl
                      cases h
                      have h1 := stripLit_shorter _ _ _ (by simp) hl
                      simp only [List.length_cons] at h1
                      omega
                    · cases h
    · intro input acc v r h
      rw [parseElements] at h
      split at h
      · rename_i v1 r1 hv
        have h0 := ihV _ _ _ hv
        split at h
        · cases h
        · rename_i c r2 hsk
          have h1 := skipWs_cons_length _ _ _ hsk
          split at h
          · have h2 := ihE _ _ _ _ h
            omega
          · split at h
            · cases h; omega
            · cases h
      · cases h
      · cases h
    · intro input acc v r h
      rw [parseMembers] at h
      split at h
      · cases h
      · rename_i q r0 hsk
        have h0 := skipWs_cons_length _ _ _ hsk
        split at h
        · split at h
          · cases h
          · rename_i k r1 hps
            have h1 := parseStringBody_shorter _ r0 (Nat.le_refl _) _ _ hps
            split at h
            · cases h
            · rename_i colon r2 hsk2
              have h2 := skipWs_cons_length _ _ _ hsk2
              split at h
              · split at h
                · rename_i v1 r3 hv
                  have h3 := ihV _ _ _ hv
                  split at h
                  · cases h
                  · rename_i c r4 hsk3
                    have h4 := skipWs_cons_length _ _ _ hsk3
                    split at h
                    · have h5 := ihM _ _ _ _ h
                      omega
                    · split at h
                      · cases h; omega
                      · cases h
                · cases h
                · cases h
              · cases h
        · cases h

theorem parse_fuel_enough (f : Nat) :
    (∀ input, 2 * input.length + 1 ≤ f → parseValue f input ≠ .outOfFuel) ∧
    (∀ input acc, 2 * input.length + 2 ≤ f → parseElements f input acc ≠ .outOfFuel) ∧
    (∀ input acc, 2 * input.length + 2 ≤ f → parseMembers f input acc ≠ .outOfFuel) := by
  induction f with
  | zero =>
    refine ⟨?_, ?_, ?_⟩
    · intro input hf; omega
    · intro input acc hf; omega
    · intro input acc hf; omega
  | succ f ih =>
    obtain ⟨ihV, ihE, ihM⟩ := ih
    refine ⟨?_, ?_, ?_⟩
    · intro input hf h
      rw [parseValue] at h
      split at h
      · cases h
      · rename_i c rest hsk
        have h0 := skipWs_cons_length _ _ _ hsk
        split at h
        · split at h
          · cases h
          · rename_i c2 rest2 hsk2
            have h1 := skipWs_cons_length _ _ _ hsk2
            split at h
            · cases h
            · exact ihM _ _ (by simp only [List.length_cons]; omega) h
        · split at h
          · split at h
            · cases h
            · rename_i c2 rest2 hsk2
              have h1 := skipWs_cons_length _ _ _ hsk2
              split at h
              · cases h
              · exact ihE _ _ (by simp only [List.length_cons]; omega) h
          · split at h
            · split at h <;> cases h
            · split at h
              · split at h <;> cases h
              · split at h
                · cases h
                · split at h
                  · cases h
                  · split at h <;> cases h
    · intro input acc hf h
      rw [parseElements] at h
      split at h
      · rename_i v1 r1 hv
        have h0 := (parse_shorter f).1 _ _ _ hv
        split at h
        · cases h
        · rename_i c r2 hsk
          have h1 := skipWs_cons_length _ _ _ hsk
          split at h
          · exact ihE _ _ (by omega) h
          · split at h <;> cases h
      · cases h
      · rename_i hv
        exact ihV _ (by omega) hv
    · intro input acc hf h
      rw [parseMembers] at h
      split at h
      · cases h
      · rename_i q r0 hsk
        have h0 := skipWs_cons_length _ _ _ hsk
        split at h
        · split at h
          · cases h
          · rename_i k r1 hps
            have h1 := parseStringBody_shorter _ r0 (Nat.le_refl _) _ _ hps
            split at h
            · cases h
            · rename_i colon r2 hsk2
              have h2 := skipWs_cons_length _ _ _ hsk2
              split at h
              · split at h
                · rename_i v1 r3 hv
                  have h3 := (parse_shorter f).1 _ _ _ hv
                  split at h
                  · cases h
                  · rename_i c r4 hsk3
                    have h4 := skipWs_cons_length _ _ _ hsk3
                    split at h
                    · exact ihM _ _ (by omega) h
                    · split at h <;> cases h
                · cases h
                · rename_i hv
                  exact ihV _ (by omega) hv
              · cases h
        · cases h

/-- The fuel `JSON_parse` gives the parser is never used up: when `JSON_parse`
returns `none`, the text is not a JSON text. -/
theorem JSON_parse_fuel (text : JsString) :
    parseValue (2 * text.length + 2) text ≠ .outOfFuel :=
  (parse_fuel_enough _).1 text (by omega)

theorem utf8Length_ge (s : JsString) : s.length ≤ utf8Length s := by
  induction s using utf8Length.induct with
  | case1 => simp [utf8Length]
  | case2 c =>
    simp only [utf8Length, utf8UnitLength, List.length_singleton]
    split_ifs <;> omega
  | case3 c d rest hpair ih =>
    simp only [utf8Length, if_pos hpair, List.length_cons]
    omega
  | case4 c d rest hpair ih =>
    simp only [utf8Length, if_neg hpair, utf8UnitLength, List.length_cons] at ih ⊢
    split_ifs <;> omega

theorem quoteUnit_length_pos (c : Nat) : 1 ≤ (quoteUnit c).length := by
  simp only [quoteUnit, unicodeEscape]
  split_ifs <;> simp

theorem quoteBody_length_ge (s : JsString) : s.length ≤ (quoteBody s).length := by
  induction s using quoteBody.induct with
  | case1 => simp [quoteBody]
  | case2 c =>
    simp only [quoteBody, List.length_singleton]
    exact quoteUnit_length_pos c
  | case3 c d rest hpair ih =>
    simp only [quoteBody, if_pos hpair, List.length_cons]
    omega
  | case4 c d rest hpair ih =>
    have := quoteUnit_length_pos c
    simp only [quoteBody, if_neg hpair, List.length_append, List.length_cons] at ih ⊢
    omega

theorem stringifyRequest_length_ge (text voice model : JsString) (outputPath : Option JsString) :
    text.length ≤ (stringifyRequest text voice model outputPath).length := by
  have := quoteBody_length_ge text
  rw [stringifyRequest_shape]
  simp only [List.length_cons, List.length_append]
  omega

theorem linuxSpawn_refuses (engine : Engine) (this : KittenTTS) (text voice : JsString)
    (outputPath : Option JsString) (hlen : 131072 ≤ text.length) :
    linuxSpawn engine (this.generateCall text voice outputPath) = .error ⟨js "spawn E2BIG"⟩ := by
  have h1 := stringifyRequest_length_ge text voice this.modelName outputPath
  have h2 := utf8Length_ge (stringifyRequest text voice this.modelName outputPath)
  have h3 : 131072 ≤ utf8Length (stringifyRequest text voice this.modelName outputPath) := by
    omega
  simp [linuxSpawn, KittenTTS.generateCall, h3]

theorem generateWith_valid (P : Platform) (spawn : Spawn) (h : Heap)
    (modelName : Option JsString) (text voice : JsString) (outputPath : Option JsString)
    (hv : voice ∈ voiceCatalog) :
    (KittenTTS.new P h modelName).1.generateWith P spawn (KittenTTS.new P h modelName).2 text
      (some voice) outputPath =
    match spawn ((KittenTTS.new P h modelName).1.generateCall text voice outputPath) with
    | .error e => { spawned := [], outcome := .ok (.reject e) }
    | .ok python =>
      { spawned := [(KittenTTS.new P h modelName).1.generateCall text voice outputPath],
        outcome := onClose P outputPath (capture python.events) python.code } := by
  have hinc : includes voiceCatalog voice = true := (includes_iff _ _).2 hv
  simp [KittenTTS.generateWith, new_reads_catalog, hinc]

/-! ## Theorems -/

/-- C1: with a voice outside the catalog `generate` spawns nothing and rejects
with a message that spells out the eight catalog voices. -/
theorem generate_invalid_voice (P : Platform) (engine : Engine) (h : Heap)
    (modelName : Option JsString) (text voice : JsString) (outputPath : Option JsString)
    (hv : voice ∉ voiceCatalog) :
    ((KittenTTS.new P h modelName).1.generate P engine (KittenTTS.new P h modelName).2 text
        (some voice) outputPath).spawned = [] ∧
    ((KittenTTS.new P h modelName).1.generate P engine (KittenTTS.new P h modelName).2 text
        (some voice) outputPath).outcome
      = .ok (.reject ⟨js ("Invalid voice. Available voices: expr-voice-2-m, expr-voice-2-f, " ++
          "expr-voice-3-m, expr-voice-3-f, expr-voice-4-m, expr-voice-4-f, " ++
          "expr-voice-5-m, expr-voice-5-f")⟩) ∧
    voiceCatalog.length = 8 ∧
    ∀ v ∈ voiceCatalog, v <:+: js ("Invalid voice. Available voices: expr-voice-2-m, " ++
          "expr-voice-2-f, expr-voice-3-m, expr-voice-3-f, expr-voice-4-m, expr-voice-4-f, " ++
          "expr-voice-5-m, expr-voice-5-f") := by
  have hinc : includes voiceCatalog voice = false := by
    cases hc : includes voiceCatalog voice with
    | false => rfl
    | true => exact absurd ((includes_iff _ _).1 hc) hv
  have hmsg : js "Invalid voice. Available voices: " ++ join (js ", ") voiceCatalog
      = js ("Invalid voice. Available voices: expr-voice-2-m, expr-voice-2-f, " ++
          "expr-voice-3-m, expr-voice-3-f, expr-voice-4-m, expr-voice-4-f, " ++
          "expr-voice-5-m, expr-voice-5-f") := by rfl
  refine ⟨?_, ?_, rfl, ?_⟩
  · simp [KittenTTS.generate, KittenTTS.generateWith, new_reads_catalog, hinc]
  · simp only [KittenTTS.generate, KittenTTS.generateWith, new_reads_catalog, hinc, Option.getD_some]
    simp [hmsg]
  · intro v hvin
    have hj := infix_join (js ", ") voiceCatalog v hvin
    obtain ⟨a, b, hab⟩ := hj
    have hmsg2 : js ("Invalid voice. Available voices: expr-voice-2-m, " ++
          "expr-voice-2-f, expr-voice-3-m, expr-voice-3-f, expr-voice-4-m, expr-voice-4-f, " ++
          "expr-voice-5-m, expr-voice-5-f")
        = js "Invalid voice. Available voices: " ++ join (js ", ") voiceCatalog := by rfl
    rw [hmsg2]
    exact ⟨js "Invalid voice. Available voices: " ++ a, b, by simp [← hab]⟩

theorem generate_invalid_voice_witness :
    js "bogus-voice" ∉ voiceCatalog ∧
    ((KittenTTS.new demoPlatform ⟨[]⟩ none).1.generate demoPlatform
        (stubEngine (js "\x7b\"audio_data\":\"AAAA\"\x7d") [] (some 0))
        (KittenTTS.new demoPlatform ⟨[]⟩ none).2 (js "Hello") (some (js "bogus-voice")) none).spawned
      = [] :=
  ⟨by decide, (generate_invalid_voice demoPlatform
      (stubEngine (js "\x7b\"audio_data\":\"AAAA\"\x7d") [] (some 0)) ⟨[]⟩ none (js "Hello")
      (js "bogus-voice") none (by decide)).1⟩

/-- C2: with a catalog voice and no `outputPath`, when the engine exits with 0
after printing (in any chunking, with optional whitespace around and between
the tokens) the object whose `audio_data` is the base64 encoding of the bytes
`b`, `generate` resolves to a buffer holding exactly `b`. -/
theorem generate_base64_roundtrip (P : Platform) (engine : Engine) (h : Heap)
    (modelName : Option JsString) (text voice : JsString) (b pre post w1 w2 w3 w4 : List Nat)
    (hv : voice ∈ voiceCatalog) (hb : ∀ x ∈ b, x < 256)
    (hcode : (engine ((KittenTTS.new P h modelName).1.generateCall text voice none)).code
      = some 0)
    (hout : (stdoutChunks
        (engine ((KittenTTS.new P h modelName).1.generateCall text voice none)).events).flatten
      = pre ++ audioResponse w1 w2 w3 w4 (base64Encode b) ++ post)
    (hpre : ∀ x ∈ pre, isJsWhiteSpace x = true) (hpost : ∀ x ∈ post, isJsWhiteSpace x = true)
    (h1 : ∀ c ∈ w1, isJsonWs c = true) (h2 : ∀ c ∈ w2, isJsonWs c = true)
    (h3 : ∀ c ∈ w3, isJsonWs c = true) (h4 : ∀ c ∈ w4, isJsonWs c = true) :
    ((KittenTTS.new P h modelName).1.generate P engine (KittenTTS.new P h modelName).2 text
        (some voice) none).outcome = .ok (.resolve (.buffer b)) := by
  rw [generate_valid P engine h modelName text voice none hv]
  have hkey : lookupMember (js "error") [(js "audio_data", JVal.str (base64Encode b))] = none := by
    rfl
  have hkey2 : lookupMember (js "audio_data") [(js "audio_data", JVal.str (base64Encode b))]
      = some (JVal.str (base64Encode b)) := by
    rfl
  simp only [onClose, hcode, ne_eq, not_true_eq_false, if_false, tryBlock, capture_stdout, hout,
    trim_audioResponse _ _ _ _ _ _ _ hpre hpost,
    JSON_parse_audioResponse _ _ _ _ _ h1 h2 h3 h4 (base64Encode_plain b), getProperty, hkey,
    hkey2, truthy, pathRequested, Bool.false_eq_true, bufferFrom, bufferFromBase64_encode b hb]

theorem generate_base64_roundtrip_witness :
    ((KittenTTS.new demoPlatform ⟨[]⟩ none).1.generate demoPlatform
        (stubEngine (js "\x7b\"audio_data\":\"AAAA\"\x7d") [] (some 0))
        (KittenTTS.new demoPlatform ⟨[]⟩ none).2 (js "Hello") (some (js "expr-voice-2-f"))
        none).outcome = .ok (.resolve (.buffer [0, 0, 0])) :=
  generate_base64_roundtrip demoPlatform
    (stubEngine (js "\x7b\"audio_data\":\"AAAA\"\x7d") [] (some 0)) ⟨[]⟩ none (js "Hello")
    (js "expr-voice-2-f") [0, 0, 0] [] [] [] [] [] [] (by decide) (by decide) (by decide)
    (by rfl) (by decide) (by decide) (by decide) (by decide) (by decide) (by decide)

/-- C3: with a catalog voice and an exit code other than 0 (or none, after a
signal), whatever was printed on stdout, `generate` rejects, and the message is
the fixed prefix followed by everything the process wrote on stderr, unchanged. -/
theorem generate_nonzero_exit (P : Platform) (engine : Engine) (h : Heap)
    (modelName : Option JsString) (text voice : JsString) (outputPath : Option JsString)
    (hv : voice ∈ voiceCatalog)
    (hcode : (engine ((KittenTTS.new P h modelName).1.generateCall text voice outputPath)).code
      ≠ some 0) :
    ((KittenTTS.new P h modelName).1.generate P engine (KittenTTS.new P h modelName).2 text
        (some voice) outputPath).outcome
      = .ok (.reject ⟨js "Python process failed: " ++ (stderrChunks
          (engine ((KittenTTS.new P h modelName).1.generateCall text voice outputPath)).events).flatten⟩) := by
  rw [generate_valid P engine h modelName text voice outputPath hv]
  simp only [onClose, ne_eq, hcode, not_false_eq_true, if_true, capture_stderr]

theorem generate_nonzero_exit_witness :
    ((KittenTTS.new demoPlatform ⟨[]⟩ none).1.generate demoPlatform
        (stubEngine (js "\x7b\"audio_data\":\"AAAA\"\x7d") (js "Traceback") (some 1))
        (KittenTTS.new demoPlatform ⟨[]⟩ none).2 (js "Hello") (some (js "expr-voice-2-f"))
        none).outcome
      = .ok (.reject ⟨js "Python process failed: Traceback"⟩) :=
  generate_nonzero_exit demoPlatform
    (stubEngine (js "\x7b\"audio_data\":\"AAAA\"\x7d") (js "Traceback") (some 1)) ⟨[]⟩ none
    (js "Hello") (js "expr-voice-2-f") none (by decide) (by decide)

/-- C4 as stated fails: a response whose `error` field is the empty string,
printed with exit code 0, does not make `generate` fail; it resolves with the
decoded audio. -/
theorem error_field_empty_resolves :
    JSON_parse (trim (js "\x7b\"error\":\"\",\"audio_data\":\"AAAA\"\x7d"))
      = some (.obj [(js "error", .str []), (js "audio_data", .str (js "AAAA"))]) ∧
    ((KittenTTS.new demoPlatform ⟨[]⟩ none).1.generate demoPlatform
        (stubEngine (js "\x7b\"error\":\"\",\"audio_data\":\"AAAA\"\x7d") [] (some 0))
        (KittenTTS.new demoPlatform ⟨[]⟩ none).2 (js "Hello") (some (js "expr-voice-2-f"))
        none).outcome = .ok (.resolve (.buffer [0, 0, 0])) := by
  refine ⟨by rfl, ?_⟩
  rw [generate_zero_exit _ _ _ _ _ _ _ (by decide) (by rfl)]
  rfl

/-- C4, amended: with a catalog voice, any `outputPath` and exit code 0, when
stdout parses to an object whose `error` field is truthy, `generate` rejects and
never resolves; the message is ToString of the field whenever that is defined,
so for a string field it is that string. -/
theorem generate_error_field (P : Platform) (engine : Engine) (h : Heap)
    (modelName : Option JsString) (text voice : JsString) (outputPath : Option JsString)
    (members : List (JsString × JVal)) (v : JVal)
    (hv : voice ∈ voiceCatalog)
    (hcode : (engine ((KittenTTS.new P h modelName).1.generateCall text voice outputPath)).code
      = some 0)
    (hparse : JSON_parse (trim (stdoutChunks
        (engine ((KittenTTS.new P h modelName).1.generateCall text voice outputPath)).events).flatten)
      = some (.obj members))
    (herr : lookupMember (js "error") members = some v) (ht : truthy (some v) = true) :
    (∃ e, ((KittenTTS.new P h modelName).1.generate P engine (KittenTTS.new P h modelName).2 text
        (some voice) outputPath).outcome = .ok (.reject e)) ∧
    (∀ msg, toStringValue P v = .ok msg →
      ((KittenTTS.new P h modelName).1.generate P engine (KittenTTS.new P h modelName).2 text
        (some voice) outputPath).outcome = .ok (.reject ⟨msg⟩)) ∧
    (∀ s, v = .str s →
      ((KittenTTS.new P h modelName).1.generate P engine (KittenTTS.new P h modelName).2 text
        (some voice) outputPath).outcome = .ok (.reject ⟨s⟩)) := by
  rw [generate_zero_exit P engine h modelName text voice outputPath hv hcode]
  have hmsg : ∀ msg, toStringValue P v = .ok msg →
      (match tryBlock P outputPath (stdoutChunks
          (engine ((KittenTTS.new P h modelName).1.generateCall text voice outputPath)).events).flatten with
        | .ok s => (.ok s : Except JsError (Settlement Resolved))
        | .error parseError =>
          .ok (.reject ⟨js "Failed to parse Python output: " ++ parseError.message⟩))
      = .ok (.reject ⟨msg⟩) := by
    intro msg hm
    simp only [tryBlock, hparse, getProperty, herr, ht, if_true, hm]
  refine ⟨?_, hmsg, ?_⟩
  · cases hts : toStringValue P v with
    | ok msg => exact ⟨_, hmsg msg hts⟩
    | error e =>
      refine ⟨⟨js "Failed to parse Python output: " ++ e.message⟩, ?_⟩
      simp only [tryBlock, hparse, getProperty, herr, ht, if_true, hts]
  · intro s hs
    subst hs
    exact hmsg s rfl

theorem generate_error_field_witness :
    ((KittenTTS.new demoPlatform ⟨[]⟩ none).1.generate demoPlatform
        (stubEngine (js "\x7b\"error\":\"Model not found\",\"output_path\":\"a.wav\"\x7d\n") []
          (some 0))
        (KittenTTS.new demoPlatform ⟨[]⟩ none).2 (js "Hello") (some (js "expr-voice-2-f"))
        (some (js "a.wav"))).outcome = .ok (.reject ⟨js "Model not found"⟩) :=
  (generate_error_field demoPlatform
    (stubEngine (js "\x7b\"error\":\"Model not found\",\"output_path\":\"a.wav\"\x7d\n") []
      (some 0)) ⟨[]⟩ none (js "Hello") (js "expr-voice-2-f") (some (js "a.wav"))
    [(js "error", .str (js "Model not found")), (js "output_path", .str (js "a.wav"))]
    (.str (js "Model not found")) (by decide) (by rfl) (by rfl) (by rfl) (by rfl)).2.2 _ rfl

/-- C5: with a catalog voice, exit code 0 and a stdout that `JSON.parse` rejects
after trimming, `generate` rejects with the message
`Failed to parse Python output: ` followed by the message of the SyntaxError;
and for every call whatsoever the `close` listener settles the promise: no
exception leaves it. -/
theorem generate_invalid_json (P : Platform) (engine : Engine) (h : Heap)
    (modelName : Option JsString) (text voice : JsString) (outputPath : Option JsString)
    (hv : voice ∈ voiceCatalog)
    (hcode : (engine ((KittenTTS.new P h modelName).1.generateCall text voice outputPath)).code
      = some 0)
    (hbad : JSON_parse (trim (stdoutChunks
      (engine ((KittenTTS.new P h modelName).1.generateCall text voice outputPath)).events).flatten)
      = none) :
    ((KittenTTS.new P h modelName).1.generate P engine (KittenTTS.new P h modelName).2 text
        (some voice) outputPath).outcome
      = .ok (.reject ⟨js "Failed to parse Python output: " ++ P.syntaxErrorMessage (trim
          (stdoutChunks (engine ((KittenTTS.new P h modelName).1.generateCall text voice
            outputPath)).events).flatten)⟩) ∧
    ∀ (engine2 : Engine) (text2 : JsString) (voice2 outputPath2 : Option JsString),
      ∃ s, ((KittenTTS.new P h modelName).1.generate P engine2 (KittenTTS.new P h modelName).2
        text2 voice2 outputPath2).outcome = .ok s := by
  refine ⟨?_, fun engine2 text2 voice2 outputPath2 => generate_settles _ _ _ _ _ _ _⟩
  rw [generate_valid P engine h modelName text voice outputPath hv]
  simp only [onClose, hcode, ne_eq, not_true_eq_false, if_false, tryBlock, capture_stdout, hbad]

theorem generate_invalid_json_witness :
    ((KittenTTS.new demoPlatform ⟨[]⟩ none).1.generate demoPlatform
        (stubEngine (js "Loading model") [] (some 0))
        (KittenTTS.new demoPlatform ⟨[]⟩ none).2 (js "Hello") (some (js "expr-voice-2-f"))
        none).outcome
      = .ok (.reject ⟨js "Failed to parse Python output: Unexpected token"⟩) :=
  (generate_invalid_json demoPlatform (stubEngine (js "Loading model") [] (some 0)) ⟨[]⟩ none
    (js "Hello") (js "expr-voice-2-f") none (by decide) (by decide) (by rfl)).1

/-- C6, at the input where the code departs from it: with the empty string
supplied as `outputPath`, through `generateToFile`, the code takes the buffer
mode and resolves with the decoded audio, where the claim, and the docstring of
`generateToFile` (a promise of the output file path), have it resolve with the
`output_path` of the response, here `out.wav`. -/
theorem empty_output_path_takes_buffer_mode :
    JSON_parse (trim (js "\x7b\"output_path\":\"out.wav\",\"audio_data\":\"AAAA\"\x7d"))
      = some (.obj [(js "output_path", .str (js "out.wav")), (js "audio_data", .str (js "AAAA"))]) ∧
    ((KittenTTS.new demoPlatform ⟨[]⟩ none).1.generateToFile demoPlatform
        (stubEngine (js "\x7b\"output_path\":\"out.wav\",\"audio_data\":\"AAAA\"\x7d") []
          (some 0))
        (KittenTTS.new demoPlatform ⟨[]⟩ none).2 (js "Hello") (js "")
        (some (js "expr-voice-2-f"))).outcome = .ok (.resolve (.buffer [0, 0, 0])) := by
  refine ⟨by rfl, ?_⟩
  unfold KittenTTS.generateToFile
  rw [generate_zero_exit _ _ _ _ _ _ _ (by decide) (by rfl)]
  rfl

/-- C7 as stated fails: on Linux, with a catalog voice and a text of 131072
letters `a`, the serialised request is too long to be passed as an argument:
`spawn` throws `E2BIG`, no subprocess is launched and `generate` rejects. -/
theorem oversized_request_not_spawned :
    js "expr-voice-2-f" ∈ voiceCatalog ∧
    ((KittenTTS.new demoPlatform ⟨[]⟩ none).1.generateWith demoPlatform
        (linuxSpawn (stubEngine (js "\x7b\"audio_data\":\"AAAA\"\x7d") [] (some 0)))
        (KittenTTS.new demoPlatform ⟨[]⟩ none).2 (List.replicate 131072 97)
        (some (js "expr-voice-2-f")) none).spawned = [] ∧
    ((KittenTTS.new demoPlatform ⟨[]⟩ none).1.generateWith demoPlatform
        (linuxSpawn (stubEngine (js "\x7b\"audio_data\":\"AAAA\"\x7d") [] (some 0)))
        (KittenTTS.new demoPlatform ⟨[]⟩ none).2 (List.replicate 131072 97)
        (some (js "expr-voice-2-f")) none).outcome = .ok (.reject ⟨js "spawn E2BIG"⟩) := by
  have hv : js "expr-voice-2-f" ∈ voiceCatalog := by decide
  have href := linuxSpawn_refuses (stubEngine (js "\x7b\"audio_data\":\"AAAA\"\x7d") [] (some 0))
    (KittenTTS.new demoPlatform ⟨[]⟩ none).1 (List.replicate 131072 97) (js "expr-voice-2-f") none
    (by rw [List.length_replicate])
  rw [generateWith_valid _ _ _ _ _ _ _ hv, href]
  exact ⟨hv, rfl, rfl⟩

/-- C7, amended: with a catalog voice, `generate` hands `spawn` one call,
`python3` with the script, the token `generate` and one JSON string; that string
parses back to an object with exactly the four members `text`, `voice`, `model`
(the model name given to the constructor, `KittenML/kitten-tts-nano-0.2` when
none was given) and `output_path` (the given path, or `null`). When the
operating system launches that call, exactly one subprocess exists, with these
arguments; when `spawn` throws, none does and `generate` rejects with the
exception. -/
theorem generateWith_spawns_request (P : Platform) (spawn : Spawn) (h : Heap)
    (modelName : Option JsString) (text voice : JsString) (outputPath : Option JsString)
    (hv : voice ∈ voiceCatalog) :
    JSON_parse (stringifyRequest text voice (modelName.getD (js "KittenML/kitten-tts-nano-0.2"))
        outputPath)
      = some (.obj [(js "text", .str text), (js "voice", .str voice),
        (js "model", .str (modelName.getD (js "KittenML/kitten-tts-nano-0.2"))),
        (js "output_path", pathValue outputPath)]) ∧
    (∀ run, spawn ⟨js "python3", [(KittenTTS.new P h modelName).1.pythonScript, js "generate",
        stringifyRequest text voice (modelName.getD (js "KittenML/kitten-tts-nano-0.2"))
          outputPath]⟩ = .ok run →
      ((KittenTTS.new P h modelName).1.generateWith P spawn (KittenTTS.new P h modelName).2 text
        (some voice) outputPath).spawned
        = [⟨js "python3", [(KittenTTS.new P h modelName).1.pythonScript, js "generate",
            stringifyRequest text voice (modelName.getD (js "KittenML/kitten-tts-nano-0.2"))
              outputPath]⟩]) ∧
    (∀ e, spawn ⟨js "python3", [(KittenTTS.new P h modelName).1.pythonScript, js "generate",
        stringifyRequest text voice (modelName.getD (js "KittenML/kitten-tts-nano-0.2"))
          outputPath]⟩ = .error e →
      ((KittenTTS.new P h modelName).1.generateWith P spawn (KittenTTS.new P h modelName).2 text
        (some voice) outputPath).spawned = [] ∧
      ((KittenTTS.new P h modelName).1.generateWith P spawn (KittenTTS.new P h modelName).2 text
        (some voice) outputPath).outcome = .ok (.reject e)) := by
  have hcall : (KittenTTS.new P h modelName).1.generateCall text voice outputPath
      = ⟨js "python3", [(KittenTTS.new P h modelName).1.pythonScript, js "generate",
          stringifyRequest text voice (modelName.getD (js "KittenML/kitten-tts-nano-0.2"))
            outputPath]⟩ := rfl
  refine ⟨JSON_parse_stringifyRequest _ _ _ _, ?_, ?_⟩
  · intro run hrun
    rw [generateWith_valid P spawn h modelName text voice outputPath hv, hcall, hrun]
  · intro e he
    rw [generateWith_valid P spawn h modelName text voice outputPath hv, hcall, he]
    exact ⟨rfl, rfl⟩

theorem generateWith_spawns_request_witness :
    ((KittenTTS.new demoPlatform ⟨[]⟩ none).1.generateWith demoPlatform
        (linuxSpawn (stubEngine (js "\x7b\"audio_data\":\"AAAA\"\x7d") [] (some 0)))
        (KittenTTS.new demoPlatform ⟨[]⟩ none).2 (js "Say \"hi\"\n") (some (js "expr-voice-4-f"))
        none).spawned
      = [⟨js "python3", [js "/srv/kitten-tts/python-bridge.py", js "generate",
          js ("\x7b\"text\":\"Say \\\"hi\\\"\\n\",\"voice\":\"expr-voice-4-f\"," ++
            "\"model\":\"KittenML/kitten-tts-nano-0.2\",\"output_path\":null\x7d")]⟩] :=
  (generateWith_spawns_request demoPlatform
    (linuxSpawn (stubEngine (js "\x7b\"audio_data\":\"AAAA\"\x7d") [] (some 0))) ⟨[]⟩ none
    (js "Say \"hi\"\n") (js "expr-voice-4-f") none (by decide)).2.1
    ⟨[.stdoutData (js "\x7b\"audio_data\":\"AAAA\"\x7d"), .stderrData []], some 0⟩ (by rfl)

/-- C8 as stated fails: a log line before the response line makes `generate`
reject with the parse error, while the response line alone resolves. -/
theorem leading_line_breaks_parse :
    ((KittenTTS.new demoPlatform ⟨[]⟩ none).1.generate demoPlatform
        (stubEngine (js "Loading model\n\x7b\"audio_data\":\"AAAA\"\x7d\n") [] (some 0))
        (KittenTTS.new demoPlatform ⟨[]⟩ none).2 (js "Hello") (some (js "expr-voice-2-f"))
        none).outcome
      = .ok (.reject ⟨js "Failed to parse Python output: Unexpected token"⟩) ∧
    ((KittenTTS.new demoPlatform ⟨[]⟩ none).1.generate demoPlatform
        (stubEngine (js "\x7b\"audio_data\":\"AAAA\"\x7d\n") [] (some 0))
        (KittenTTS.new demoPlatform ⟨[]⟩ none).2 (js "Hello") (some (js "expr-voice-2-f"))
        none).outcome = .ok (.resolve (.buffer [0, 0, 0])) := by
  refine ⟨?_, ?_⟩
  · rw [generate_zero_exit _ _ _ _ _ _ _ (by decide) (by rfl)]
    rfl
  · rw [generate_zero_exit _ _ _ _ _ _ _ (by decide) (by rfl)]
    rfl

/-- C8, amended: `generate` parses the whole of stdout, trimmed, as one JSON
text. For a catalog voice and exit code 0, a stdout made of an object text
(from its opening to its closing brace) with only whitespace before and after
it, blank lines included, gives the same result as that object text alone. -/
theorem generate_reads_trimmed_stdout (P : Platform) (engine1 engine2 : Engine) (h : Heap)
    (modelName : Option JsString) (text voice : JsString) (outputPath : Option JsString)
    (pre post mid : List Nat)
    (hv : voice ∈ voiceCatalog)
    (hcode1 : (engine1 ((KittenTTS.new P h modelName).1.generateCall text voice outputPath)).code
      = some 0)
    (hcode2 : (engine2 ((KittenTTS.new P h modelName).1.generateCall text voice outputPath)).code
      = some 0)
    (hout1 : (stdoutChunks
        (engine1 ((KittenTTS.new P h modelName).1.generateCall text voice outputPath)).events).flatten
      = pre ++ (123 :: (mid ++ [125])) ++ post)
    (hout2 : (stdoutChunks
        (engine2 ((KittenTTS.new P h modelName).1.generateCall text voice outputPath)).events).flatten
      = 123 :: (mid ++ [125]))
    (hpre : ∀ x ∈ pre, isJsWhiteSpace x = true) (hpost : ∀ x ∈ post, isJsWhiteSpace x = true) :
    ((KittenTTS.new P h modelName).1.generate P engine1 (KittenTTS.new P h modelName).2 text
        (some voice) outputPath).outcome
      = ((KittenTTS.new P h modelName).1.generate P engine2 (KittenTTS.new P h modelName).2 text
        (some voice) outputPath).outcome := by
  rw [generate_zero_exit P engine1 h modelName text voice outputPath hv hcode1,
    generate_zero_exit P engine2 h modelName text voice outputPath hv hcode2, hout1, hout2]
  have ht1 := trim_surround pre post mid 123 125 hpre hpost (by decide) (by decide)
  have ht2 := trim_surround [] [] mid 123 125 (by simp) (by simp) (by decide) (by decide)
  simp only [List.nil_append, List.append_nil] at ht2
  simp only [tryBlock, ht1, ht2]

theorem generate_reads_trimmed_stdout_witness :
    ((KittenTTS.new demoPlatform ⟨[]⟩ none).1.generate demoPlatform
        (stubEngine (js "\n\n  \x7b\"audio_data\":\"AAAA\"\x7d\r\n") [] (some 0))
        (KittenTTS.new demoPlatform ⟨[]⟩ none).2 (js "Hello") (some (js "expr-voice-2-f"))
        none).outcome
      = ((KittenTTS.new demoPlatform ⟨[]⟩ none).1.generate demoPlatform
        (stubEngine (js "\x7b\"audio_data\":\"AAAA\"\x7d") [] (some 0))
        (KittenTTS.new demoPlatform ⟨[]⟩ none).2 (js "Hello") (some (js "expr-voice-2-f"))
        none).outcome :=
  generate_reads_trimmed_stdout demoPlatform
    (stubEngine (js "\n\n  \x7b\"audio_data\":\"AAAA\"\x7d\r\n") [] (some 0))
    (stubEngine (js "\x7b\"audio_data\":\"AAAA\"\x7d") [] (some 0)) ⟨[]⟩ none (js "Hello")
    (js "expr-voice-2-f") none (js "\n\n  ") (js "\r\n") (js "\"audio_data\":\"AAAA\"")
    (by decide) (by rfl) (by rfl) (by rfl) (by rfl) (by decide) (by decide)

/-- C9: whatever calls of `getAvailableVoices` and in-place mutations of the
arrays it returned came before, `getAvailableVoices` returns a new array that
holds the eight catalog strings in the order of the constructor, and `generate`
behaves as it does right after construction. -/
theorem getAvailableVoices_copy (P : Platform) (h : Heap) (modelName : Option JsString)
    (steps : List ClientStep) :
    ((KittenTTS.new P h modelName).1.getAvailableVoices
        (steps.foldl (clientStep (KittenTTS.new P h modelName).1)
          ⟨(KittenTTS.new P h modelName).2, []⟩).heap).2.read
      ((KittenTTS.new P h modelName).1.getAvailableVoices
        (steps.foldl (clientStep (KittenTTS.new P h modelName).1)
          ⟨(KittenTTS.new P h modelName).2, []⟩).heap).1
      = [js "expr-voice-2-m", js "expr-voice-2-f", js "expr-voice-3-m", js "expr-voice-3-f",
         js "expr-voice-4-m", js "expr-voice-4-f", js "expr-voice-5-m", js "expr-voice-5-f"] ∧
    ((KittenTTS.new P h modelName).1.getAvailableVoices
        (steps.foldl (clientStep (KittenTTS.new P h modelName).1)
          ⟨(KittenTTS.new P h modelName).2, []⟩).heap).1
      ≠ (KittenTTS.new P h modelName).1.availableVoices ∧
    ∀ (engine : Engine) (text : JsString) (voice outputPath : Option JsString),
      (KittenTTS.new P h modelName).1.generate P engine
        (steps.foldl (clientStep (KittenTTS.new P h modelName).1)
          ⟨(KittenTTS.new P h modelName).2, []⟩).heap text voice outputPath
      = (KittenTTS.new P h modelName).1.generate P engine (KittenTTS.new P h modelName).2
          text voice outputPath := by
  have hinv := clientRun_inv (KittenTTS.new P h modelName).1 steps
    ⟨(KittenTTS.new P h modelName).2, []⟩ (new_inv P h modelName)
  refine ⟨?_, ?_, ?_⟩
  · simp only [KittenTTS.getAvailableVoices]
    rw [read_alloc, hinv.catalog]
    rfl
  · have := hinv.live
    simp only [KittenTTS.getAvailableVoices, Heap.alloc]
    exact Nat.ne_of_gt this
  · intro engine text voice outputPath
    apply generate_heap_congr
    rw [hinv.catalog, new_reads_catalog]

/-- C10: `isModelAvailable` launches `python3` once with the script and the one
token `check`, and resolves, never rejects, with a boolean that is true exactly
when the exit code is 0. -/
theorem isModelAvailable_exit_code (P : Platform) (engine : Engine) (h : Heap)
    (modelName : Option JsString) :
    ((KittenTTS.new P h modelName).1.isModelAvailable engine).spawned
      = [⟨js "python3", [(KittenTTS.new P h modelName).1.pythonScript, js "check"]⟩] ∧
    ∃ b : Bool,
      ((KittenTTS.new P h modelName).1.isModelAvailable engine).outcome = .ok (.resolve b) ∧
      (b = true ↔ (engine ⟨js "python3",
        [(KittenTTS.new P h modelName).1.pythonScript, js "check"]⟩).code = some 0) := by
  refine ⟨rfl, _, rfl, ?_⟩
  simp [KittenTTS.checkCall]

end Bridge
